import Mathlib

/-!
Shallow embedding of the Project Red Dust simulation core
(`red_dust/harness/rand_gen.py`, `red_dust/env/schema.py`,
`red_dust/env/mars.py`, `red_dust/simulation.py`).

Python floats are modelled as exact rationals (`ℚ`); Python ints as `ℤ`
(`ℕ` where the source guarantees non-negativity).  Python dicts are
modelled as insertion-ordered association lists, matching dict iteration
order.  A Python exception escaping a function is modelled with `Option`
(`none` = the call raised) or with an explicit error flag in the result.
-/

set_option maxRecDepth 100000

namespace RedDust

/-! ### Deterministic Generator (`harness/rand_gen.py`) -/

/-- LCG parameters from glibc (`DeterministicRandom._MODULUS`). -/
def MODULUS : ℤ := 2 ^ 31
/-- `DeterministicRandom._MULTIPLIER`. -/
def MULTIPLIER : ℤ := 1103515245
/-- `DeterministicRandom._INCREMENT`. -/
def INCREMENT : ℤ := 12345

/-- The generator: `self._seed` and `self._initial_seed`. -/
structure DeterministicRandom where
  seed : ℤ
  initialSeed : ℤ
deriving DecidableEq, Repr

/-- Serialized generator state, as returned by `get_state` (a dict of five
integers). -/
structure RandState where
  seed : ℤ
  initialSeed : ℤ
  modulus : ℤ
  multiplier : ℤ
  increment : ℤ
deriving DecidableEq, Repr

namespace DeterministicRandom

/-- `DeterministicRandom.__init__`: `self._seed = seed % self._MODULUS`
(Python `%` on a positive modulus = `Int.emod` for the non-negative result). -/
def init (seed : ℤ) : DeterministicRandom :=
  let s := seed % MODULUS
  ⟨s, s⟩

/-- One LCG step: `(self._MULTIPLIER * self._seed + self._INCREMENT) % self._MODULUS`. -/
def lcgNext (s : ℤ) : ℤ := (MULTIPLIER * s + INCREMENT) % MODULUS

/-- Advance the accumulator one LCG step (the first line of `next_int` /
`next_float`). -/
def advance (g : DeterministicRandom) : DeterministicRandom :=
  { g with seed := lcgNext g.seed }

/-- `next_int(min_val, max_val)` with `max_val` given.  The accumulator is
advanced first; then, if `max_val < min_val`, a `ValueError` is raised
(modelled as `none`, with the already-advanced generator). -/
def next_int (g : DeterministicRandom) (minVal maxVal : ℤ) :
    DeterministicRandom × Option ℤ :=
  let g' := g.advance
  if maxVal < minVal then (g', none)
  else
    let rangeSize := maxVal - minVal + 1
    (g', some (minVal + g'.seed % rangeSize))

/-- `next_int` restricted to the in-range branch (`max_val ≥ min_val`), as used
everywhere inside the environment. -/
def nextIntOk (g : DeterministicRandom) (minVal maxVal : ℤ) :
    DeterministicRandom × ℤ :=
  let g' := g.advance
  (g', minVal + g'.seed % (maxVal - minVal + 1))

/-- `next_float()` returns `self._seed / self._MODULUS` after advancing. -/
def next_float (g : DeterministicRandom) : DeterministicRandom × ℚ :=
  let g' := g.advance
  (g', (g'.seed : ℚ) / (MODULUS : ℚ))

/-- `choice(seq)` on a sequence known non-empty (`x :: xs`); the element at the
drawn index is returned (`getD` with head fallback is never hit: the drawn
index is in range). -/
def choiceNe (gen : DeterministicRandom) (x : α) (xs : List α) :
    DeterministicRandom × α :=
  let r := gen.nextIntOk 0 ((x :: xs).length - 1)
  (r.1, (x :: xs).getD r.2.toNat x)

/-- `get_state()`. -/
def get_state (g : DeterministicRandom) : RandState :=
  ⟨g.seed, g.initialSeed, MODULUS, MULTIPLIER, INCREMENT⟩

/-- `set_state(state)`: the seed and initial seed are assigned first; the
constants are verified afterwards, and a mismatch raises (`false` flag)
with both assignments already performed. -/
def set_state (_g : DeterministicRandom) (st : RandState) :
    DeterministicRandom × Bool :=
  let g' : DeterministicRandom := { seed := st.seed, initialSeed := st.initialSeed }
  if st.modulus = MODULUS ∧ st.multiplier = MULTIPLIER ∧ st.increment = INCREMENT then
    (g', true)
  else
    (g', false)

end DeterministicRandom

/-! ### Draw sequences, for the generator round-trip property -/

/-- One request against the generator: `draw_int`, `draw_float`, or a `choice`
from a sequence of the given length (identified by the chosen index). -/
inductive DrawOp where
  | dint (lo hi : ℤ)
  | dfloat
  | dchoiceN (n : ℕ)
deriving DecidableEq, Repr

/-- The visible outcome of one draw (`none` inside = the call raised). -/
inductive DrawOut where
  | oint (v : Option ℤ)
  | ofloat (v : ℚ)
  | ochoice (v : Option ℕ)
deriving DecidableEq, Repr

/-- Run a list of draw requests; a raised exception aborts the remainder of
the sequence (as an uncaught Python exception would). -/
def runDraws : DeterministicRandom → List DrawOp → DeterministicRandom × List DrawOut
  | g, [] => (g, [])
  | g, .dint lo hi :: rest =>
    match g.next_int lo hi with
    | (g', none) => (g', [.oint none])
    | (g', some v) =>
      let (gf, outs) := runDraws g' rest
      (gf, .oint (some v) :: outs)
  | g, .dfloat :: rest =>
    let (g', q) := g.next_float
    let (gf, outs) := runDraws g' rest
    (gf, .ofloat q :: outs)
  | g, .dchoiceN n :: rest =>
    match n with
    | 0 => (g, [.ochoice none])
    | m + 1 =>
      let (g', i) := g.nextIntOk 0 ((m + 1 : ℕ) - 1)
      let (gf, outs) := runDraws g' rest
      (gf, .ochoice (some i.toNat) :: outs)

/-! ### World State (`env/schema.py`) -/

/-- The distinct log-message shapes produced by the core (the Python code
logs formatted strings; the payload of each message is kept instead of its
rendered text). -/
inductive LogMsg where
  | initialized
  | depleted (resource : String)
  | lowEnergyOxygenDoubled
  | criticalLow (resource : String) (amount : ℚ)
  | actionLog (type target argument : String)
  | explorerDiscovery (agentName : String) (amount : ℤ) (resource : String)
  | engineerBonus (agentName : String) (bonus : ℚ)
  | lifeSupportFailure
  | starvation
  | solarPanelFail (loss : ℤ)
  | waterRecyclerFail (loss : ℤ)
  | mentalBreakdown (agentName : String)
  | death (agentName : String)
  | emergency (title : String)
  | missionAssigned (title : String)
  | missionComplete (title : String)
  | decisionResolved (title optionText : String)
  | gameOver
deriving DecidableEq, Repr

/-- One log line: `add_log` stamps the current tick onto the message. -/
structure LogEntry where
  tick : ℤ
  msg : LogMsg
deriving DecidableEq, Repr

/-- A secret objective record (never touched by the simulation pipeline). -/
structure SecretObjectiveR where
  type : String
  targetAgent : Option String
  completed : Bool
  failed : Bool
deriving DecidableEq, Repr

/-- `Agent` dataclass. -/
structure Agent where
  name : String
  health : ℚ
  mental_state : ℚ
  location : String
  specialization : Option String
  secretObjective : Option SecretObjectiveR
deriving DecidableEq, Repr

/-- `Agent.__post_init__` clamping + defaults (`health=100`, `mental=80`,
`location="habitat"`). -/
def Agent.mkNew (name : String) (spec : Option String) : Agent :=
  { name := name
    health := max 0 (min 100 100)
    mental_state := max 0 (min 100 80)
    location := "habitat"
    specialization := spec
    secretObjective := none }

/-- `Agent.is_alive`: `health > 0.0`. -/
def Agent.is_alive (a : Agent) : Bool := decide (0 < a.health)

/-- `SPECIALIZATION_BONUSES` keyed through `Agent.get_specialization_enum`:
an unknown or empty tag yields no bonuses. -/
def Agent.get_bonuses (a : Agent) : List (String × ℚ) :=
  match a.specialization with
  | some "engineer" => [("repair_bonus", 0.30), ("energy_bonus", 0.20)]
  | some "scientist" => [("research_bonus", 0.40), ("food_bonus", 0.20)]
  | some "explorer" => [("discovery_bonus", 0.50), ("range_bonus", 0.30)]
  | some "medic" => [("health_bonus", 0.30), ("mental_bonus", 0.40)]
  | some "pilot" => [("emergency_bonus", 0.30), ("failure_reduction", 0.20)]
  | some "commander" => [("team_efficiency", 0.15), ("mutiny_reduction", 0.10)]
  | _ => []

/-- Python `bonuses.get(key, default)`. -/
def bget (bs : List (String × ℚ)) (key : String) (dflt : ℚ) : ℚ :=
  match bs.lookup key with
  | some v => v
  | none => dflt

/-- One resolution option of a `Decision` (`{"text": ..., "effects": {...}}`). -/
structure DOption where
  text : String
  effects : List (String × ℚ)
deriving DecidableEq, Repr

/-- `Decision` dataclass. -/
structure Decision where
  id : String
  type : String
  title : String
  description : String
  options : List DOption
  tick_created : ℤ
  resolved : Bool
  chosen_option : Option ℕ
deriving DecidableEq, Repr

/-- `Mission` dataclass.  (Note: it has no `resource` field — the template's
`resource` key is dropped when the mission is constructed.) -/
structure Mission where
  id : String
  type : String
  title : String
  description : String
  target_value : ℚ
  current_value : ℚ
  reward : List (String × ℚ)
  status : String
  tick_created : ℤ
deriving DecidableEq, Repr

/-- `GameState` dataclass.  `resources` and `agents` are insertion-ordered
dicts, modelled as association lists. -/
structure GameState where
  tick : ℤ
  resources : List (String × ℚ)
  logs : List LogEntry
  agents : List (String × Agent)
  pending_decisions : List Decision
  missions : List Mission
  rng_state : Option RandState
deriving DecidableEq, Repr

namespace GameState

/-- `add_log(message)`. -/
def add_log (s : GameState) (m : LogMsg) : GameState :=
  { s with logs := s.logs ++ [⟨s.tick, m⟩] }

/-- Membership test for the resources dict (`resource_name in self.resources`). -/
def hasRes (rs : List (String × ℚ)) (name : String) : Bool :=
  rs.any (fun p => p.1 == name)

/-- `get_resource(name)`: `self.resources.get(resource_name, 0.0)`. -/
def get_resource (s : GameState) (name : String) : ℚ :=
  match s.resources.lookup name with
  | some v => v
  | none => 0

/-- Dict assignment `self.resources[name] = v` for a key already present:
replace the value at the (unique) slot for that key. -/
def setRes : List (String × ℚ) → String → ℚ → List (String × ℚ)
  | [], _, _ => []
  | (k, v) :: t, name, x =>
    if k == name then (k, x) :: t else (k, v) :: setRes t name x

/-- `modify_resource(name, delta)`: insert a 0 slot for an unknown name,
add the delta, clamp at 0, and log depletion whenever the *unclamped*
result is ≤ 0. -/
def modify_resource (s : GameState) (name : String) (delta : ℚ) : GameState :=
  let rs := if hasRes s.resources name then s.resources else s.resources ++ [(name, 0)]
  let oldValue := match rs.lookup name with
    | some v => v
    | none => 0
  let newValue := oldValue + delta
  let s' := { s with resources := setRes rs name (max 0 newValue) }
  if newValue ≤ 0 then s'.add_log (.depleted name) else s'

/-- `is_game_over()`: any of the four core resources ≤ 0, or no living agent. -/
def is_game_over (s : GameState) : Bool :=
  (["oxygen", "water", "energy", "food"].any fun r => decide (s.get_resource r ≤ 0))
    || (s.agents.filter (fun p => p.2.is_alive)).isEmpty

/-- `create_initial_state()` with the default crew. -/
def create_initial_state : GameState :=
  let s : GameState :=
    { tick := 0
      resources := [("oxygen", 1000), ("water", 800), ("energy", 500), ("food", 600)]
      logs := []
      agents :=
        [("Commander Chen", Agent.mkNew "Commander Chen" (some "commander")),
         ("Dr. Rodriguez", Agent.mkNew "Dr. Rodriguez" (some "medic")),
         ("Engineer Tanaka", Agent.mkNew "Engineer Tanaka" (some "engineer")),
         ("Botanist Schmidt", Agent.mkNew "Botanist Schmidt" (some "scientist")),
         ("Pilot Okafor", Agent.mkNew "Pilot Okafor" (some "pilot"))]
      pending_decisions := []
      missions := []
      rng_state := none }
  s.add_log .initialized

end GameState

/-! ### String helpers (Python `str.lower` and `needle in haystack`) -/

/-- ASCII lowering of one character (all names in the data are ASCII). -/
def lowerChar (c : Char) : Char :=
  if 'A' ≤ c ∧ c ≤ 'Z' then Char.ofNat (c.toNat + 32) else c

/-- Python `str.lower()` (ASCII). -/
def lowerStr (s : String) : String := ⟨s.data.map lowerChar⟩

/-- Whether the first list is an initial segment of the second. -/
def listStartsWith : List Char → List Char → Bool
  | [], _ => true
  | _ :: _, [] => false
  | a :: as, b :: bs => a == b && listStartsWith as bs

/-- Whether `needle` occurs contiguously inside the second list. -/
def listHasSub (needle : List Char) : List Char → Bool
  | [] => needle.isEmpty
  | c :: t => listStartsWith needle (c :: t) || listHasSub needle t

/-- Python `needle in haystack` for strings. -/
def strIn (needle hay : String) : Bool := listHasSub needle.data hay.data

/-- Decimal digit character. -/
def digitChar (n : ℕ) : Char := Char.ofNat (48 + n % 10)

/-- Decimal rendering of a natural number (fuel-based so it reduces in the
kernel; the fuel `n + 1` always suffices). -/
def natChars : ℕ → ℕ → List Char
  | 0, _ => []
  | fuel + 1, n => if n < 10 then [digitChar n] else natChars fuel (n / 10) ++ [digitChar (n % 10)]

/-- Python `str(n)` for a natural number. -/
def natToStr (n : ℕ) : String := ⟨natChars (n + 1) n⟩

/-- Python `str(i)` for an integer. -/
def intToStr (i : ℤ) : String :=
  if i < 0 then "-" ++ natToStr (-i).toNat else natToStr i.toNat

/-! ### Agent actions (`agents/schema.py`) -/

/-- `AgentAction`: an already-validated action record. -/
structure AgentAction where
  type : String
  target : String
  argument : String
deriving DecidableEq, Repr

/-! ### Simulation Engine (`env/mars.py`) -/

namespace MarsEnvironment

def OXYGEN_PER_AGENT : ℚ := 2.0
def FOOD_PER_AGENT : ℚ := 0.5
def WATER_PER_AGENT : ℚ := 1.0
def ENERGY_BASE_CONSUMPTION : ℚ := 5.0
def ENERGY_PRODUCTION : ℚ := 8.0
def WATER_RECYCLING : ℚ := 0.8
def SOLAR_PANEL_FAILURE_PROB : ℚ := 0.05
def LIFE_SUPPORT_FAILURE_PROB : ℚ := 0.03
def DECISION_PROB : ℚ := 0.08
def MISSION_PROB : ℚ := 0.10
def MAX_PENDING_DECISIONS : ℕ := 3
def MAX_MISSIONS : ℕ := 5

/-- `_has_specialization(agent_name, spec)`: looks the agent up by name;
an absent agent, absent tag, or empty (falsy) tag yields `false`. -/
def hasSpec (s : GameState) (name : String) (spec : String) : Bool :=
  match s.agents.lookup name with
  | some a =>
    match a.specialization with
    | some sp => if sp == "" then false else sp == spec
    | none => false
  | none => false

/-- `_get_agent_bonuses(agent_name)`. -/
def agentBonuses (s : GameState) (name : String) : List (String × ℚ) :=
  match s.agents.lookup name with
  | some a => a.get_bonuses
  | none => []

/-- `_consume_resources(num_alive)`. -/
def consumeResources (s : GameState) (numAlive : ℕ) : GameState :=
  if numAlive = 0 then s
  else
    let oxygenConsumption0 : ℚ := (numAlive : ℚ) * OXYGEN_PER_AGENT
    let r0 :=
      if s.get_resource "energy" < 10.0 then
        (s.add_log .lowEnergyOxygenDoubled, oxygenConsumption0 * 2.0)
      else (s, oxygenConsumption0)
    let s := r0.1
    let oxygenConsumption := r0.2
    let s := s.modify_resource "oxygen" (-oxygenConsumption)
    let s := s.modify_resource "food" (-(numAlive : ℚ) * FOOD_PER_AGENT)
    let waterConsumed : ℚ := (numAlive : ℚ) * WATER_PER_AGENT
    let waterRecycled := waterConsumed * WATER_RECYCLING
    let waterNetLoss := waterConsumed - waterRecycled
    let s := s.modify_resource "water" (-waterNetLoss)
    let energyConsumed := ENERGY_BASE_CONSUMPTION + (numAlive : ℚ) * 0.5
    let s := s.modify_resource "energy" (-energyConsumed)
    s.resources.foldl
      (fun acc p => if p.2 < 20.0 then acc.add_log (.criticalLow p.1 p.2) else acc) s

/-- The `WORK` branch of `_process_actions`. -/
def processWork (s : GameState) (g : DeterministicRandom)
    (agentName : Option String) (bonuses : List (String × ℚ)) :
    GameState × DeterministicRandom :=
  let energyGain : ℚ := 2.0
  let s1 :=
    match agentName with
    | some n =>
      if hasSpec s n "scientist" then
        s.modify_resource "food" (5.0 * (1 + bget bonuses "food_bonus" 0.20))
      else s
    | none => s
  let sg :=
    match agentName with
    | some n =>
      if hasSpec s1 n "explorer" then
        let rf := g.next_float
        if rf.2 < bget bonuses "discovery_bonus" 0.50 then
          let rc := rf.1.choiceNe "oxygen" ["water", "energy", "food"]
          let ra := rc.1.nextIntOk 3 8
          ((s1.modify_resource rc.2 (ra.2 : ℚ)).add_log
            (.explorerDiscovery n ra.2 rc.2), ra.1)
        else (s1, rf.1)
      else (s1, g)
    | none => (s1, g)
  let energyGain2 :=
    match agentName with
    | some n =>
      if hasSpec sg.1 n "pilot" then energyGain * (1 + bget bonuses "emergency_bonus" 0.30)
      else energyGain
    | none => energyGain
  (sg.1.modify_resource "energy" energyGain2, sg.2)

/-- The `REPAIR` branch of `_process_actions`. -/
def processRepair (s : GameState) (g : DeterministicRandom) (target : String)
    (agentName : Option String) (bonuses : List (String × ℚ)) :
    GameState × DeterministicRandom :=
  let s1 := s.modify_resource "energy" (-5.0)
  let repairChance : ℚ := 0.3
  let repairChance2 :=
    match agentName with
    | some n =>
      if hasSpec s1 n "engineer" then repairChance * (1 + bget bonuses "repair_bonus" 0.30)
      else repairChance
    | none => repairChance
  let rf := g.next_float
  if rf.2 < repairChance2 then
    let rg := rf.1.nextIntOk 5 15
    -- `int(resource_gain * (1 + repair_bonus))` truncates toward zero; the
    -- value is positive, so truncation is `Int.floor`.
    let gain : ℤ :=
      match agentName with
      | some n =>
        if hasSpec s1 n "engineer" then ⌊(rg.2 : ℚ) * (1 + bget bonuses "repair_bonus" 0.30)⌋
        else rg.2
      | none => rg.2
    if target == "solar_panel" then (s1.modify_resource "energy" (gain : ℚ), rg.1)
    else if target == "oxygen_generator" then (s1.modify_resource "oxygen" (gain : ℚ), rg.1)
    else if target == "water_recycler" then (s1.modify_resource "water" (gain : ℚ), rg.1)
    else (s1, rg.1)
  else (s1, rf.1)

/-- The `SABOTAGE` branch of `_process_actions`. -/
def processSabotage (s : GameState) (g : DeterministicRandom) (target : String) :
    GameState × DeterministicRandom :=
  if target == "solar_panel" then
    let rv := g.nextIntOk 10 30
    (s.modify_resource "energy" (-(rv.2 : ℚ)), rv.1)
  else if target == "oxygen_generator" then
    let rv := g.nextIntOk 5 20
    (s.modify_resource "oxygen" (-(rv.2 : ℚ)), rv.1)
  else if target == "water_recycler" then
    let rv := g.nextIntOk 5 15
    (s.modify_resource "water" (-(rv.2 : ℚ)), rv.1)
  else if target == "greenhouse" then
    let rv := g.nextIntOk 5 25
    (s.modify_resource "food" (-(rv.2 : ℚ)), rv.1)
  else (s, g)

/-- The `EAT` branch of `_process_actions`: food is consumed and every agent
whose (lowercased) name occurs in the action's free-text argument gets a
health boost — with no liveness check. -/
def processEat (s : GameState) (g : DeterministicRandom) (argument : String)
    (bonuses : List (String × ℚ)) : GameState × DeterministicRandom :=
  let rv := g.nextIntOk 1 3
  let s1 := s.modify_resource "food" (-(rv.2 : ℚ))
  let newAgents := s1.agents.map fun p =>
    if strIn (lowerStr p.2.name) (lowerStr argument) then
      let healthBoost : ℚ := 5.0
      let healthBoost2 :=
        if hasSpec s1 p.2.name "medic" then healthBoost * (1 + bget bonuses "health_bonus" 0.30)
        else healthBoost
      (p.1, { p.2 with health := min 100 (p.2.health + healthBoost2) })
    else p
  ({ s1 with agents := newAgents }, rv.1)

/-- The `REST` branch of `_process_actions`. -/
def processRest (s : GameState) (g : DeterministicRandom) (argument : String)
    (bonuses : List (String × ℚ)) : GameState × DeterministicRandom :=
  let newAgents := s.agents.map fun p =>
    if strIn (lowerStr p.2.name) (lowerStr argument) then
      let mentalBoost : ℚ := 3.0
      let mentalBoost2 :=
        if hasSpec s p.2.name "medic" then mentalBoost * (1 + bget bonuses "mental_bonus" 0.40)
        else mentalBoost
      (p.1, { p.2 with mental_state := min 100 (p.2.mental_state + mentalBoost2) })
    else p
  ({ s with agents := newAgents }, g)

/-- The `TALK` branch of `_process_actions`. -/
def processTalk (s : GameState) (g : DeterministicRandom) (argument : String)
    (bonuses : List (String × ℚ)) : GameState × DeterministicRandom :=
  let matched := fun (p : String × Agent) =>
    strIn (lowerStr p.2.name) (lowerStr argument)
  let newAgents := s.agents.map fun p =>
    if matched p then
      let mentalBoost : ℚ := 2.0
      let mentalBoost2 :=
        if hasSpec s p.2.name "medic" then mentalBoost * (1 + bget bonuses "mental_bonus" 0.40)
        else mentalBoost
      (p.1, { p.2 with mental_state := min 100 (p.2.mental_state + mentalBoost2) })
    else p
  let participants := (s.agents.filter matched).length
  let s2 : GameState := { s with agents := newAgents }
  if participants ≥ 2 then
    let hasCommander := s2.agents.any fun p => hasSpec s2 p.2.name "commander"
    let energyBonus : ℚ := 1.0
    let energyBonus2 :=
      if hasCommander then
        match s2.agents.find? (fun p => hasSpec s2 p.2.name "commander") with
        | some p => energyBonus * (1 + bget p.2.get_bonuses "team_efficiency" 0.15)
        | none => energyBonus
      else energyBonus
    (s2.modify_resource "energy" energyBonus2, g)
  else (s2, g)

/-- Effect application for one action (the body of the second loop of
`_process_actions`).  Specialization lookups read the agents dict mid-loop
in Python, but the loop only mutates health/mental state, which the lookups
never read, so reading from the state at hand is equivalent. -/
def processOneAction (s : GameState) (g : DeterministicRandom) (action : AgentAction) :
    GameState × DeterministicRandom :=
  let agentName : Option String := if action.argument == "" then none else some action.argument
  let bonuses := match agentName with
    | some n => agentBonuses s n
    | none => []
  if action.type == "work" then processWork s g agentName bonuses
  else if action.type == "repair" then processRepair s g action.target agentName bonuses
  else if action.type == "sabotage" then processSabotage s g action.target
  else if action.type == "eat" then processEat s g action.argument bonuses
  else if action.type == "rest" then processRest s g action.argument bonuses
  else if action.type == "talk" then processTalk s g action.argument bonuses
  else (s, g)

/-- `_process_actions(actions)`: log every action, then apply effects. -/
def processActions (s : GameState) (g : DeterministicRandom) (actions : List AgentAction) :
    GameState × DeterministicRandom :=
  let s := actions.foldl (fun st a => st.add_log (.actionLog a.type a.target a.argument)) s
  actions.foldl (fun (p : GameState × DeterministicRandom) a => processOneAction p.1 p.2 a) (s, g)

/-- `_produce_resources()`: the first engineer (dict order) boosts production. -/
def produceResources (s : GameState) : GameState :=
  let energyGain : ℚ := ENERGY_PRODUCTION
  let se :=
    match s.agents.find? (fun p => hasSpec s p.2.name "engineer") with
    | some p =>
      let energyBonus := bget p.2.get_bonuses "energy_bonus" 0.20
      (s.add_log (.engineerBonus p.2.name energyBonus), energyGain * (1 + energyBonus))
    | none => (s, energyGain)
  se.1.modify_resource "energy" se.2

/-- The life-support-failure check of `_check_disasters`. -/
def lifeSupportCheck (s : GameState) (g : DeterministicRandom) :
    GameState × DeterministicRandom :=
  if s.get_resource "energy" < 5.0 then
    let rf := g.next_float
    if rf.2 < LIFE_SUPPORT_FAILURE_PROB then
      ((s.modify_resource "oxygen" (-10.0)).add_log .lifeSupportFailure, rf.1)
    else (s, rf.1)
  else (s, g)

/-- The starvation check of `_check_disasters`: only living agents lose
health. -/
def starvationCheck (s : GameState) : GameState :=
  if s.get_resource "food" < 10.0 then
    let newAgents := s.agents.map fun p =>
      if p.2.is_alive then (p.1, { p.2 with health := p.2.health - 5.0 }) else p
    ({ s with agents := newAgents }).add_log .starvation
  else s

/-- `_check_disasters()`. -/
def checkDisasters (s : GameState) (g : DeterministicRandom) :
    GameState × DeterministicRandom :=
  let sg := lifeSupportCheck s g
  (starvationCheck sg.1, sg.2)

/-- The solar-panel-failure event of `_random_events`. -/
def solarEvent (s : GameState) (g : DeterministicRandom) (failureReduction : ℚ) :
    GameState × DeterministicRandom :=
  let rf := g.next_float
  if rf.2 < SOLAR_PANEL_FAILURE_PROB * (1 - failureReduction) then
    let rl := rf.1.nextIntOk 5 15
    ((s.modify_resource "energy" (-(rl.2 : ℚ))).add_log (.solarPanelFail rl.2), rl.1)
  else (s, rf.1)

/-- The water-recycler-failure event of `_random_events`. -/
def waterEvent (s : GameState) (g : DeterministicRandom) (failureReduction : ℚ) :
    GameState × DeterministicRandom :=
  let rf := g.next_float
  if rf.2 < 0.02 * (1 - failureReduction) then
    let rl := rf.1.nextIntOk 10 30
    ((s.modify_resource "water" (-(rl.2 : ℚ))).add_log (.waterRecyclerFail rl.2), rl.1)
  else (s, rf.1)

/-- The mental-breakdown event of `_random_events`.  The victim is an object
picked from the filtered living list; it is identified here by its position
in the agents dict. -/
def breakdownEvent (s : GameState) (g : DeterministicRandom) (failureReduction : ℚ) :
    GameState × DeterministicRandom :=
  let rf := g.next_float
  if rf.2 < 0.01 * (1 - failureReduction) then
    match s.agents.enum.filter (fun ip => ip.2.2.is_alive) with
    | [] => (s, rf.1)
    | e :: es =>
      let rc := rf.1.choiceNe e es
      let newAgents := s.agents.enum.map fun ip =>
        if ip.1 = rc.2.1 then
          (ip.2.1, { ip.2.2 with mental_state := ip.2.2.mental_state - 20.0 })
        else ip.2
      (({ s with agents := newAgents }).add_log (.mentalBreakdown rc.2.2.2.name), rc.1)
  else (s, rf.1)

/-- `_random_events()`. -/
def randomEvents (s : GameState) (g : DeterministicRandom) :
    GameState × DeterministicRandom :=
  let failureReduction : ℚ :=
    match s.agents.find? (fun p => hasSpec s p.2.name "pilot") with
    | some p => bget p.2.get_bonuses "failure_reduction" 0.20
    | none => 0.0
  let sg1 := solarEvent s g failureReduction
  let sg2 := waterEvent sg1.1 sg1.2 failureReduction
  breakdownEvent sg2.1 sg2.2 failureReduction

end MarsEnvironment

/-- `DecisionType` enum (declaration order = `list(DecisionType)` order). -/
inductive DecisionType where
  | meteor_strike | oxygen_crisis | water_crisis | energy_crisis | food_crisis
  | water_contamination | solar_storm | crew_mutiny | equipment_failure | supply_drop
deriving DecidableEq, Repr

def DecisionType.value : DecisionType → String
  | .meteor_strike => "meteor_strike"
  | .oxygen_crisis => "oxygen_crisis"
  | .water_crisis => "water_crisis"
  | .energy_crisis => "energy_crisis"
  | .food_crisis => "food_crisis"
  | .water_contamination => "water_contamination"
  | .solar_storm => "solar_storm"
  | .crew_mutiny => "crew_mutiny"
  | .equipment_failure => "equipment_failure"
  | .supply_drop => "supply_drop"

/-- `MissionType` enum. -/
inductive MissionType where
  | produce_resources | maintain_systems | explore | research
deriving DecidableEq, Repr

def MissionType.value : MissionType → String
  | .produce_resources => "produce_resources"
  | .maintain_systems => "maintain_systems"
  | .explore => "explore"
  | .research => "research"

/-- One entry of the `DECISION_TEMPLATES` dict. -/
structure DecisionTemplate where
  title : String
  description : String
  options : List DOption
deriving DecidableEq, Repr

/-- One entry of the `MISSION_TEMPLATES` lists. -/
structure MissionTemplate where
  title : String
  description : String
  target : ℚ
  resource : String
  reward : List (String × ℚ)
deriving DecidableEq, Repr

namespace MarsEnvironment

/-- `DECISION_TEMPLATES`: only 7 of the 10 `DecisionType` members have a
template; looking up one of the other 3 raises `KeyError` (`none`). -/
def DECISION_TEMPLATES : DecisionType → Option DecisionTemplate
  | .meteor_strike => some
      ⟨"陨石来袭！METEOR STRIKE IMMINENT!", "雷达探测到大型陨石正在接近殖民地！需要立即做出决定。",
        [⟨"启动防御护盾 (消耗100能量)", [("energy", -100)]⟩,
         ⟨"疏散人员到避难所 (无消耗)", []⟩,
         ⟨"发射拦截导弹 (消耗50能量, 30水)", [("energy", -50), ("water", -30)]⟩]⟩
  | .energy_crisis => some
      ⟨"能源危机！ENERGY CRISIS!", "太阳能板故障，能源储备严重不足！",
        [⟨"关闭非必要系统 (保存50能量)", [("energy", 50)]⟩,
         ⟨"启动备用发电机 (消耗30食物)", [("food", -30)]⟩,
         ⟨"紧急抢修太阳能板 (无消耗, 成功率50%)", []⟩]⟩
  | .water_contamination => some
      ⟨"水源污染！WATER CONTAMINATION!", "水循环系统检测到有害物质！",
        [⟨"丢弃所有受污染水源 (损失100水)", [("water", -100)]⟩,
         ⟨"启用净化系统 (消耗40能量)", [("energy", -40)]⟩,
         ⟨"使用紧急过滤装置 (消耗20食物)", [("food", -20)]⟩]⟩
  | .solar_storm => some
      ⟨"太阳风暴！SOLAR STORM WARNING!", "强烈的太阳风暴即将来袭，可能损坏电子设备！",
        [⟨"关闭所有电子设备 (无消耗)", []⟩,
         ⟨"增强防护罩 (消耗80能量)", [("energy", -80)]⟩,
         ⟨"疏散到地下掩体 (无消耗)", []⟩]⟩
  | .crew_mutiny => some
      ⟨"船员叛变！CREW MUTINY!", "船员对任务分配感到不满，可能发生叛变！",
        [⟨"增加食物配给 (消耗30食物)", [("food", -30)]⟩,
         ⟨"召开全体会议 (无消耗)", []⟩,
         ⟨"重新分配任务 (无消耗)", []⟩]⟩
  | .equipment_failure => some
      ⟨"设备故障！EQUIPMENT FAILURE!", "关键生命维持设备出现故障！",
        [⟨"紧急修复 (消耗50能量)", [("energy", -50)]⟩,
         ⟨"切换到备用设备 (消耗30水)", [("water", -30)]⟩,
         ⟨"让工程师手动维修 (无消耗)", []⟩]⟩
  | .supply_drop => some
      ⟨"补给空投！SUPPLY DROP AVAILABLE!", "收到地面控制中心的紧急补给信号！",
        [⟨"接收所有补给 (增加资源)", [("oxygen", 50), ("water", 50), ("energy", 50), ("food", 50)]⟩,
         ⟨"只接收关键物资 (增加30氧气, 30水)", [("oxygen", 30), ("water", 30)]⟩,
         ⟨"拒绝接收 (保持现状)", []⟩]⟩
  | _ => none

/-- `MISSION_TEMPLATES`, one non-empty list per mission type, given as
head + tail so that `choice` (which never sees an empty list here) can be
applied directly. -/
def MISSION_TEMPLATES : MissionType → MissionTemplate × List MissionTemplate
  | .produce_resources =>
    (⟨"增加氧气产量", "生产50单位氧气", 50, "oxygen", [("energy", 10)]⟩,
     [⟨"收集水资源", "收集40单位水", 40, "water", [("energy", 10)]⟩,
      ⟨"发电任务", "产生60单位能量", 60, "energy", [("oxygen", 10)]⟩,
      ⟨"食品生产", "生产30单位食物", 30, "food", [("water", 10)]⟩])
  | .maintain_systems =>
    (⟨"系统维护", "修复关键设备", 1, "repair", [("energy", 20)]⟩,
     [⟨"清洁太阳能板", "清洁太阳能板提高效率", 1, "clean", [("energy", 15)]⟩,
      ⟨"检查生命维持", "全面检查生命维持系统", 1, "check", [("oxygen", 15)]⟩])
  | .explore =>
    (⟨"探索新区域", "探索周边地区", 1, "explore", [("energy", 30)]⟩,
     [⟨"采集样本", "采集岩石样本", 1, "sample", [("food", 20)]⟩])
  | .research =>
    (⟨"研究新算法", "优化资源利用", 1, "research", [("energy", 25)]⟩,
     [⟨"分析数据", "分析气象数据", 1, "analyze", [("water", 20)]⟩])

/-- `_generate_decision()`: `none` models the `KeyError` raised when the
chosen `DecisionType` has no template. -/
def generateDecision (s : GameState) (g : DeterministicRandom) :
    Option (GameState × DeterministicRandom) :=
  if s.pending_decisions.length ≥ MAX_PENDING_DECISIONS then some (s, g)
  else
    let rf := g.next_float
    if DECISION_PROB < rf.2 then some (s, rf.1)
    else
      let rc := rf.1.choiceNe DecisionType.meteor_strike
        [.oxygen_crisis, .water_crisis, .energy_crisis, .food_crisis,
         .water_contamination, .solar_storm, .crew_mutiny, .equipment_failure, .supply_drop]
      let dt := rc.2
      match DECISION_TEMPLATES dt with
      | none => none
      | some tpl =>
        let rn := rc.1.nextIntOk 1000 9999
        let g := rn.1
        let n := rn.2
        let did := "decision_" ++ intToStr s.tick ++ "_" ++ intToStr n
        let decision : Decision :=
          { id := did, type := dt.value, title := tpl.title,
            description := tpl.description, options := tpl.options,
            tick_created := s.tick, resolved := false, chosen_option := none }
        let s := { s with pending_decisions := s.pending_decisions ++ [decision] }
        some (s.add_log (.emergency tpl.title), g)

/-- `_generate_mission()`. -/
def generateMission (s : GameState) (g : DeterministicRandom) :
    GameState × DeterministicRandom :=
  if s.missions.length ≥ MAX_MISSIONS then (s, g)
  else if !(s.missions.filter (fun m => m.status == "active")).isEmpty then (s, g)
  else
    let rf := g.next_float
    if MISSION_PROB < rf.2 then (s, rf.1)
    else
      let rm := rf.1.choiceNe MissionType.produce_resources
        [.maintain_systems, .explore, .research]
      let mt := rm.2
      let tps := MISSION_TEMPLATES mt
      let rt := rm.1.choiceNe tps.1 tps.2
      let tpl := rt.2
      let rn := rt.1.nextIntOk 1000 9999
      let g := rn.1
      let n := rn.2
      let mid := "mission_" ++ intToStr s.tick ++ "_" ++ intToStr n
      let mission : Mission :=
        { id := mid, type := mt.value, title := tpl.title,
          description := tpl.description, target_value := tpl.target,
          current_value := 0, reward := tpl.reward, status := "active",
          tick_created := s.tick }
      (({ s with missions := s.missions ++ [mission] }).add_log (.missionAssigned tpl.title), g)

/-- Number of actions of a given type (`for action in actions: if ...`). -/
def countActions (actions : List AgentAction) (t : String) : ℕ :=
  (actions.filter (fun a => a.type == t)).length

/-- `_update_missions(actions)`. -/
def updateMissions (s : GameState) (actions : List AgentAction) : GameState :=
  let folded := s.missions.foldl
    (fun (acc : GameState × List Mission) m =>
      if m.status != "active" then (acc.1, acc.2 ++ [m])
      else
        let m :=
          if m.type == "produce_resources" then
            -- `mission.to_dict().get("resource", "")`: `Mission.to_dict` emits
            -- no "resource" key, so the lookup always yields "" and this
            -- branch never increments progress.
            if ["oxygen", "water", "energy", "food"].contains "" then
              { m with current_value := m.current_value + 2.0 }
            else m
          else if m.type == "maintain_systems" then
            { m with current_value := m.current_value + (countActions actions "repair" : ℚ) * 1.0 }
          else if m.type == "explore" then
            { m with current_value := m.current_value + (countActions actions "work" : ℚ) * 0.5 }
          else if m.type == "research" then
            { m with current_value := m.current_value + (countActions actions "talk" : ℚ) * 0.5 }
          else m
        if m.target_value ≤ m.current_value then
          let m := { m with status := "completed" }
          let st := m.reward.foldl (fun st2 p => st2.modify_resource p.1 p.2) acc.1
          (st.add_log (.missionComplete m.title), acc.2 ++ [m])
        else (acc.1, acc.2 ++ [m]))
    (s, ([] : List Mission))
  { folded.1 with missions := folded.2 }

/-- The per-agent body of `_update_agents` (health recovery, mental decay;
the death clamp is handled by the caller).  `s0` is the state at the start
of the stage: the stage mutates only health/mental state, which the
resource reads and specialization lookups never touch. -/
def updatedAliveAgent (s0 : GameState) (ag : Agent) : Agent :=
  let ag :=
    if 30.0 < s0.get_resource "food" ∧ 50.0 < s0.get_resource "oxygen" then
      let healthRecovery : ℚ := 0.1
      let healthRecovery :=
        if hasSpec s0 ag.name "medic" then
          healthRecovery * (1 + bget ag.get_bonuses "health_bonus" 0.30)
        else healthRecovery
      { ag with health := min 100 (ag.health + healthRecovery) }
    else ag
  let mentalDamage : ℚ :=
    (if s0.get_resource "food" < 20.0 then 0.5 else 0) +
      (if s0.get_resource "oxygen" < 30.0 then 0.3 else 0)
  let mentalDamage :=
    if hasSpec s0 ag.name "medic" then mentalDamage * (1 - bget ag.get_bonuses "mental_bonus" 0.40)
    else mentalDamage
  { ag with mental_state := max 0 (ag.mental_state - mentalDamage) }

/-- Walk the agents dict; entries whose position is in `aliveIdx` (the
objects captured in `alive_agents` at the start of the tick) are updated,
dying agents are clamped to 0 health and logged in iteration order. -/
def updateAgentsAux (s0 : GameState) (aliveIdx : List ℕ) :
    ℕ → GameState → List (String × Agent) → GameState × List (String × Agent)
  | _, st, [] => (st, [])
  | i, st, p :: rest =>
    if aliveIdx.contains i then
      let ag1 := updatedAliveAgent s0 p.2
      let r :=
        if ag1.health ≤ 0 then ({ ag1 with health := 0 }, st.add_log (.death p.2.name))
        else (ag1, st)
      let rest1 := updateAgentsAux s0 aliveIdx (i + 1) r.2 rest
      (rest1.1, (p.1, r.1) :: rest1.2)
    else
      let rest1 := updateAgentsAux s0 aliveIdx (i + 1) st rest
      (rest1.1, p :: rest1.2)

/-- `_update_agents(alive_agents)`. -/
def updateAgents (s : GameState) (aliveIdx : List ℕ) : GameState :=
  let r := updateAgentsAux s aliveIdx 0 s s.agents
  { r.1 with agents := r.2 }

/-- Stages 8–12 of the tick (everything after `_generate_decision`, whose
`KeyError` propagates as `none`). -/
def stepFinish (actions : List AgentAction) (aliveIdx : List ℕ) :
    Option (GameState × DeterministicRandom) →
      Option (GameState × DeterministicRandom × Bool)
  | none => none
  | some r7 =>
    let r8 := generateMission r7.1 r7.2
    let s9 := updateMissions r8.1 actions
    let s10 := updateAgents s9 aliveIdx
    if s10.is_game_over then some (s10.add_log .gameOver, r8.2, true)
    else some ({ s10 with rng_state := some r8.2.get_state }, r8.2, false)

/-- `MarsEnvironment.step(actions)`: the per-tick pipeline.  Returns `none`
when the tick raises (`KeyError` in `_generate_decision`); otherwise the
new state, the generator, and the game-over flag. -/
def step (s : GameState) (g : DeterministicRandom) (actions : List AgentAction) :
    Option (GameState × DeterministicRandom × Bool) :=
  let s1 := { s with tick := s.tick + 1 }
  let aliveIdx := (s1.agents.enum.filter fun ip => ip.2.2.is_alive).map (fun ip => ip.1)
  let numAlive := aliveIdx.length
  let s2 := consumeResources s1 numAlive
  let r3 := processActions s2 g actions
  let s4 := produceResources r3.1
  let r5 := checkDisasters s4 r3.2
  let r6 := randomEvents r5.1 r5.2
  stepFinish actions aliveIdx (generateDecision r6.1 r6.2)

/-- Result of `resolve_decision`. -/
inductive ResolveRes where
  | ok (effects : List (String × ℚ))
  | invalidOption
  | notFound
deriving DecidableEq, Repr

/-- Walk `pending_decisions` looking for the id; on a valid hit, mark the
(first) matching decision resolved in place. -/
def resolveGo (id : String) (idx : ℤ) :
    List Decision → List Decision × Option (Decision × Bool)
  | [] => ([], none)
  | d :: rest =>
    if d.id == id then
      if idx < 0 ∨ (d.options.length : ℤ) ≤ idx then (d :: rest, some (d, false))
      else ({ d with resolved := true, chosen_option := some idx.toNat } :: rest, some (d, true))
    else
      let (l, r) := resolveGo id idx rest
      (d :: l, r)

/-- `resolve_decision(decision_id, option_index)`: no check of the
`resolved` flag — a second call on an already-resolved decision applies
its effects again. -/
def resolve_decision (s : GameState) (id : String) (idx : ℤ) : GameState × ResolveRes :=
  match resolveGo id idx s.pending_decisions with
  | (_, some (_, false)) => (s, .invalidOption)
  | (l, some (d, true)) =>
    let opt := d.options.getD idx.toNat ⟨"", []⟩
    let s := { s with pending_decisions := l }
    let s := opt.effects.foldl (fun st p => st.modify_resource p.1 p.2) s
    (s.add_log (.decisionResolved d.title opt.text), .ok opt.effects)
  | (_, none) => (s, .notFound)

end MarsEnvironment

/-! ### Timeline Controller (`simulation.py`) -/

/-- `SimulationController` (the agents' brains are the external policy and
are out of scope; actions are fed in explicitly). -/
structure SimulationController where
  seed : ℤ
  clockTick : ℤ
  clockInit : ℤ
  rng : DeterministicRandom
  state : GameState
  history : List GameState
deriving DecidableEq, Repr

namespace SimulationController

/-- `SimulationController.__init__(seed)`: fresh generator, genesis state,
initial RNG state recorded (once by `MarsEnvironment.__init__`, once by the
controller — same value), genesis snapshot saved. -/
def init (seed : ℤ) : SimulationController :=
  let rng := DeterministicRandom.init seed
  let st := GameState.create_initial_state
  let st := { st with rng_state := some rng.get_state }
  { seed := seed, clockTick := 0, clockInit := 0, rng := rng, state := st, history := [st] }

/-- `SimulationController.step()` with the given externally supplied
actions: environment step, clock advance, tick sync, snapshot append. -/
def stepWith (c : SimulationController) (actions : List AgentAction) :
    Option (SimulationController × Bool) :=
  match MarsEnvironment.step c.state c.rng actions with
  | none => none
  | some (s, g, over) =>
    let clockTick := c.clockTick + 1
    let s := { s with tick := clockTick }
    some ({ c with
              rng := g
              state := s
              clockTick := clockTick
              history := c.history ++ [s] }, over)

/-- Run N ticks, feeding the i-th action batch to the i-th tick. -/
def runTicks : SimulationController → List (List AgentAction) → Option SimulationController
  | c, [] => some c
  | c, acts :: rest =>
    match c.stepWith acts with
    | none => none
    | some (c', _) => c'.runTicks rest

/-- Result of `time_travel`. -/
inductive TTResult where
  | ok
  | outOfRange
  | incompatible
deriving DecidableEq, Repr

/-- `time_travel(target_tick)`: bounds check; restore state and clock; restore
the generator from the snapshot's `rng_state` (reseeding from
`seed + target_tick` when absent); truncate history.  If the generator
restore raises (`incompatible`), the state and clock are already replaced
but the history is left untruncated, mirroring the exception. -/
def time_travel (c : SimulationController) (t : ℤ) : SimulationController × TTResult :=
  if t < 0 ∨ (c.history.length : ℤ) ≤ t then (c, .outOfRange)
  else
    let hs := c.history.getD t.toNat c.state
    let c1 := { c with state := hs, clockTick := t, clockInit := t }
    match hs.rng_state with
    | some st =>
      let (g', okFlag) := c.rng.set_state st
      if okFlag then
        ({ c1 with rng := g', history := c.history.take (t.toNat + 1) }, .ok)
      else ({ c1 with rng := g' }, .incompatible)
    | none =>
      ({ c1 with
           rng := DeterministicRandom.init (c.seed + t)
           history := c.history.take (t.toNat + 1) }, .ok)

end SimulationController

/-! ### Measurement helpers and concrete fixtures used by the theorems -/

/-- Number of depletion log entries recorded for a resource. -/
def depletionCount (s : GameState) (name : String) : ℕ :=
  (s.logs.filter (fun e => e.msg == LogMsg.depleted name)).length

/-- Compatibility of a serialized generator state with the running LCG
constants (what `set_state` verifies). -/
def rngStateCompatible : Option RandState → Prop
  | none => True
  | some st => st.modulus = MODULUS ∧ st.multiplier = MULTIPLIER ∧ st.increment = INCREMENT

/-- Seed-42 generator. -/
def G42 : DeterministicRandom := DeterministicRandom.init 42

/-- A plain living agent. -/
def agentAlice : Agent :=
  { name := "alice", health := 100, mental_state := 80, location := "habitat"
    specialization := none, secretObjective := none }

/-- A dead agent (health exactly 0). -/
def agentBob : Agent :=
  { name := "bob", health := 0, mental_state := 50, location := "habitat"
    specialization := none, secretObjective := none }

/-- One-living-agent World State with the genesis resource levels. -/
def stateW1 : GameState :=
  { tick := 0
    resources := [("oxygen", 1000), ("water", 800), ("energy", 500), ("food", 600)]
    logs := []
    agents := [("alice", agentAlice)]
    pending_decisions := []
    missions := []
    rng_state := some G42.get_state }

/-- World State with a living agent and a dead one. -/
def stateWB : GameState :=
  { stateW1 with agents := [("alice", agentAlice), ("bob", agentBob)] }

/-- World State with no actors at all (collapsed by the no-living-actor rule). -/
def stateW0 : GameState := { stateW1 with agents := [] }

/-- An `eat` action whose free-text argument names the dead agent. -/
def eatBob : AgentAction := { type := "eat", target := "habitat", argument := "bob" }

/-- An emergency already marked resolved (with a recorded choice), pending in
the state below. -/
def decisionDone : Decision :=
  { id := "decision_1_1234", type := "meteor_strike", title := "T", description := "D"
    options := [⟨"shield", [("energy", -100)]⟩, ⟨"evacuate", []⟩]
    tick_created := 1, resolved := true, chosen_option := some 0 }

/-- World State carrying the already-resolved emergency. -/
def stateWD : GameState := { stateW1 with pending_decisions := [decisionDone] }

/-- World State whose only resource is food, already depleted to exactly 0. -/
def stateFood0 : GameState :=
  { tick := 0, resources := [("food", 0)], logs := [], agents := []
    pending_decisions := [], missions := [], rng_state := none }

/-- The World State produced by one empty-action tick of `stateW1` under
seed 42 (consumption and production applied, no random event fires, the
checkpoint holds the post-tick accumulator). -/
def stateW1after : GameState :=
  { tick := 1
    resources := [("oxygen", 998), ("water", 3999/5), ("energy", 1005/2), ("food", 1199/2)]
    logs := []
    agents := [("alice", agentAlice)]
    pending_decisions := []
    missions := []
    rng_state := some { seed := 908095735, initialSeed := 42, modulus := MODULUS
                        multiplier := MULTIPLIER, increment := INCREMENT } }

/-- The World State produced by one empty-action tick of `stateWB` under
seed 42 (alice recovers to her cap, bob stays dead). -/
def stateWBafter : GameState :=
  { stateW1after with agents := [("alice", agentAlice), ("bob", agentBob)] }

/-! ## Theorems -/

/-- The LCG step has no fixed point: `multiplier * s + increment` differs from
`s` in parity (the multiplier is odd and the increment is odd), and the
modulus is even, so one step always changes the accumulator. -/
theorem lcgNext_ne (s : ℤ) : DeterministicRandom.lcgNext s ≠ s := by
  unfold DeterministicRandom.lcgNext MULTIPLIER INCREMENT MODULUS
  omega

/-- Future draws depend only on the accumulator, not on the stored initial
seed: generators with equal accumulators produce identical outputs and end
with equal accumulators. -/
theorem runDraws_seed_congr :
    ∀ (ops : List DrawOp) (g₁ g₂ : DeterministicRandom), g₁.seed = g₂.seed →
      (runDraws g₁ ops).2 = (runDraws g₂ ops).2
      ∧ (runDraws g₁ ops).1.seed = (runDraws g₂ ops).1.seed := by
  intro ops
  induction ops with
  | nil => intro g₁ g₂ h; exact ⟨rfl, h⟩
  | cons op rest ih =>
    intro g₁ g₂ h
    have hadv : g₁.advance.seed = g₂.advance.seed := by
      simp [DeterministicRandom.advance, h]
    cases op with
    | dint lo hi =>
      by_cases hlt : hi < lo
      · simp [runDraws, DeterministicRandom.next_int, hlt, hadv]
      · obtain ⟨ho, hs⟩ := ih g₁.advance g₂.advance hadv
        simp [runDraws, DeterministicRandom.next_int, hlt, hadv, ho, hs]
    | dfloat =>
      obtain ⟨ho, hs⟩ := ih g₁.advance g₂.advance hadv
      simp [runDraws, DeterministicRandom.next_float, hadv, ho, hs]
    | dchoiceN n =>
      cases n with
      | zero => simp [runDraws, h]
      | succ m =>
        obtain ⟨ho, hs⟩ := ih g₁.advance g₂.advance hadv
        simp [runDraws, DeterministicRandom.nextIntOk, hadv, ho, hs]

/-- C2: `restore(capture(g))` reconstructs `g` exactly (same accumulator,
same initial seed, no error), and generators with equal accumulator values
produce identical future output regardless of history — so any draw
sequence after the round-trip matches drawing from `g` directly. -/
theorem generator_capture_restore_roundtrip (g gPrev g₂ : DeterministicRandom)
    (ops : List DrawOp) (h : g.seed = g₂.seed) :
    gPrev.set_state g.get_state = (g, true)
    ∧ (runDraws g ops).2 = (runDraws g₂ ops).2
    ∧ (runDraws g ops).1.seed = (runDraws g₂ ops).1.seed := by
  refine ⟨?_, (runDraws_seed_congr ops g g₂ h).1, (runDraws_seed_congr ops g g₂ h).2⟩
  simp [DeterministicRandom.set_state, DeterministicRandom.get_state]

/-- C2 witness at concrete inputs. -/
theorem generator_capture_restore_roundtrip_witness :
    (G42.seed = (DeterministicRandom.mk 42 7).seed → True) ∧
    ((DeterministicRandom.init 99).set_state G42.get_state = (G42, true)
      ∧ (runDraws G42 [.dint 0 5, .dfloat, .dchoiceN 3]).2
          = (runDraws (DeterministicRandom.mk 42 7) [.dint 0 5, .dfloat, .dchoiceN 3]).2
      ∧ (runDraws G42 [.dint 0 5, .dfloat, .dchoiceN 3]).1.seed
          = (runDraws (DeterministicRandom.mk 42 7) [.dint 0 5, .dfloat, .dchoiceN 3]).1.seed) :=
  ⟨fun _ => trivial,
   generator_capture_restore_roundtrip G42 (DeterministicRandom.init 99)
     (DeterministicRandom.mk 42 7) [.dint 0 5, .dfloat, .dchoiceN 3] (by decide)⟩

/-- C9 counterexample: a `set_state` call whose constants mismatch (so it
raises, flag `false`) but whose supplied seed and initial seed equal the
current ones leaves the generator exactly as it was — the claim that the
state "differs from its pre-call state" after every failed call is false. -/
theorem generator_failed_set_state_can_preserve_state :
    (DeterministicRandom.init 42).set_state
        ⟨42, 42, MODULUS + 1, MULTIPLIER, INCREMENT⟩
      = (DeterministicRandom.init 42, false) := by
  decide

/-- C9 (amended): the error branches are not atomic — `next_int` with
`max_val < min_val` advances the accumulator one LCG step before raising
(so its state always differs, the LCG having no fixed point), and
`set_state` with mismatching constants overwrites the seed and initial
seed with the supplied values before raising (so its state differs exactly
when the supplied values differ from the current ones). -/
theorem generator_error_branches_not_atomic (g : DeterministicRandom)
    (lo hi : ℤ) (st : RandState) :
    (hi < lo →
      g.next_int lo hi = (g.advance, none) ∧ g.advance.seed ≠ g.seed)
    ∧ (¬(st.modulus = MODULUS ∧ st.multiplier = MULTIPLIER ∧ st.increment = INCREMENT) →
        g.set_state st = (⟨st.seed, st.initialSeed⟩, false)) := by
  constructor
  · intro hlt
    refine ⟨by simp [DeterministicRandom.next_int, hlt], ?_⟩
    simpa [DeterministicRandom.advance] using lcgNext_ne g.seed
  · intro hbad
    simp [DeterministicRandom.set_state, hbad]

/-- C9 witness at concrete inputs. -/
theorem generator_error_branches_not_atomic_witness :
    ((3 : ℤ) < 5 ∧
      (G42.next_int 5 3 = (G42.advance, none) ∧ G42.advance.seed ≠ G42.seed))
    ∧ (¬((0 : ℤ) = MODULUS ∧ (0 : ℤ) = MULTIPLIER ∧ (0 : ℤ) = INCREMENT) ∧
        G42.set_state ⟨7, 8, 0, 0, 0⟩ = (⟨7, 8⟩, false)) :=
  ⟨⟨by decide, (generator_error_branches_not_atomic G42 5 3 ⟨7, 8, 0, 0, 0⟩).1 (by decide)⟩,
   ⟨by decide, (generator_error_branches_not_atomic G42 5 3 ⟨7, 8, 0, 0, 0⟩).2 (by decide)⟩⟩

/-- The membership test on the resources dict agrees with `lookup`. -/
theorem hasRes_eq_isSome (l : List (String × ℚ)) (n : String) :
    GameState.hasRes l n = (l.lookup n).isSome := by
  induction l with
  | nil => rfl
  | cons p t ih =>
    obtain ⟨k, v⟩ := p
    by_cases h : n = k
    · subst h
      simp [GameState.hasRes, List.lookup]
    · have h1 : (k == n) = false := beq_eq_false_iff_ne.mpr (Ne.symm h)
      have h2 : (n == k) = false := beq_eq_false_iff_ne.mpr h
      simp [GameState.hasRes, List.lookup, h1, h2, ← ih, GameState.hasRes]

/-- `lookup` over an appended list when the key is absent on the left. -/
theorem lookup_append_of_none {l l₂ : List (String × ℚ)} {n : String}
    (h : l.lookup n = none) : (l ++ l₂).lookup n = l₂.lookup n := by
  induction l with
  | nil => rfl
  | cons p t ih =>
    obtain ⟨k, v⟩ := p
    simp only [List.lookup, List.cons_append] at h ⊢
    cases hk : (n == k) with
    | true => simp [hk] at h
    | false => simp only [hk] at h ⊢; exact ih h

/-- A value found by `lookup` is the value of some entry of the list. -/
theorem lookup_mem_val {l : List (String × ℚ)} {n : String} {v : ℚ}
    (h : l.lookup n = some v) : ∃ k, (k, v) ∈ l := by
  induction l with
  | nil => simp [List.lookup] at h
  | cons p t ih =>
    obtain ⟨k, w⟩ := p
    simp only [List.lookup] at h
    cases hk : (n == k) with
    | true =>
      simp only [hk] at h
      exact ⟨k, by simp [Option.some_inj.mp h]⟩
    | false =>
      simp only [hk] at h
      obtain ⟨k', hk'⟩ := ih h
      exact ⟨k', by simp [hk']⟩

/-- An entry of `setRes l n x` is an entry of `l` or carries the new value. -/
theorem mem_setRes {l : List (String × ℚ)} {n : String} {x : ℚ} {p : String × ℚ}
    (hp : p ∈ GameState.setRes l n x) : p ∈ l ∨ p.2 = x := by
  induction l with
  | nil => simp [GameState.setRes] at hp
  | cons q t ih =>
    obtain ⟨k, v⟩ := q
    simp only [GameState.setRes] at hp
    by_cases hk : (k == n) = true
    · simp only [hk, if_true] at hp
      rcases List.mem_cons.mp hp with h | h
      · right; rw [h]
      · left; exact List.mem_cons_of_mem _ h
    · simp only [eq_false_of_ne_true hk, if_false] at hp
      rcases List.mem_cons.mp hp with h | h
      · left; rw [h]; exact List.mem_cons_self _ _
      · rcases ih h with h' | h'
        · left; exact List.mem_cons_of_mem _ h'
        · right; exact h'

/-- The resources component of `modify_resource` (the depletion log branch
does not touch resources). -/
theorem modify_resource_resources (s : GameState) (n : String) (d : ℚ) :
    (s.modify_resource n d).resources =
      GameState.setRes
        (if GameState.hasRes s.resources n then s.resources else s.resources ++ [(n, 0)])
        n
        (max 0 ((match (if GameState.hasRes s.resources n then s.resources
                        else s.resources ++ [(n, 0)]).lookup n with
                 | some v => v
                 | none => 0) + d)) := by
  unfold GameState.modify_resource
  split <;> split <;> rename_i heq <;> simp only [heq] <;> split <;> rfl

/-- One `modify_resource` call keeps every resource entry non-negative. -/
theorem modify_resource_nonneg (s : GameState) (n : String) (d : ℚ)
    (h : ∀ p ∈ s.resources, 0 ≤ p.2) :
    ∀ p ∈ (s.modify_resource n d).resources, 0 ≤ p.2 := by
  intro p hp
  rw [modify_resource_resources] at hp
  rcases mem_setRes hp with hmem | hval
  · by_cases hres : GameState.hasRes s.resources n = true
    · simp only [hres, if_true] at hmem
      exact h p hmem
    · simp only [eq_false_of_ne_true hres, if_false] at hmem
      rcases List.mem_append.mp hmem with h1 | h1
      · exact h p h1
      · simp only [List.mem_singleton] at h1
        rw [h1]
  · rw [hval]; exact le_max_left 0 _

/-- C7: for every sequence of `modify_resource` calls (any names, any deltas)
on a state whose resources are all non-negative, every stored resource value
stays ≥ 0 and every `get_resource` observation is ≥ 0. -/
theorem resource_floor_invariant (ops : List (String × ℚ)) (s : GameState)
    (h : ∀ p ∈ s.resources, 0 ≤ p.2) :
    (∀ p ∈ (ops.foldl (fun st o => st.modify_resource o.1 o.2) s).resources, 0 ≤ p.2)
    ∧ ∀ name, 0 ≤ (ops.foldl (fun st o => st.modify_resource o.1 o.2) s).get_resource name := by
  have main : ∀ (ops : List (String × ℚ)) (s : GameState),
      (∀ p ∈ s.resources, 0 ≤ p.2) →
      ∀ p ∈ (ops.foldl (fun st o => st.modify_resource o.1 o.2) s).resources, 0 ≤ p.2 := by
    intro ops
    induction ops with
    | nil => intro s hs; exact hs
    | cons o rest ih =>
      intro s hs
      exact ih (s.modify_resource o.1 o.2) (modify_resource_nonneg s o.1 o.2 hs)
  refine ⟨main ops s h, ?_⟩
  intro name
  have hall := main ops s h
  unfold GameState.get_resource
  cases hl : (ops.foldl (fun st o => st.modify_resource o.1 o.2) s).resources.lookup name with
  | none => simp
  | some v =>
    obtain ⟨k, hk⟩ := lookup_mem_val hl
    simpa using hall (k, v) hk

/-- C7 witness at concrete inputs. -/
theorem resource_floor_invariant_witness :
    (∀ p ∈ stateW1.resources, 0 ≤ p.2)
    ∧ 0 ≤ (([("oxygen", -2000), ("oxygen", -5), ("dust", -3)] :
        List (String × ℚ)).foldl (fun st o => st.modify_resource o.1 o.2) stateW1).get_resource
        "oxygen" := by
  have h0 : ∀ p ∈ stateW1.resources, 0 ≤ p.2 := by
    intro p hp
    have hres : stateW1.resources
        = [("oxygen", 1000), ("water", 800), ("energy", 500), ("food", 600)] := rfl
    rw [hres] at hp
    simp only [List.mem_cons, List.not_mem_nil, or_false] at hp
    rcases hp with h | h | h | h <;> (rw [h]; norm_num)
  exact ⟨h0, (resource_floor_invariant [("oxygen", -2000), ("oxygen", -5), ("dust", -3)]
    stateW1 h0).2 "oxygen"⟩

/-- After ensuring the key has a slot, `lookup` finds exactly the
`get_resource` value. -/
theorem ensured_lookup (s : GameState) (n : String) :
    (if GameState.hasRes s.resources n then s.resources
     else s.resources ++ [(n, 0)]).lookup n = some (s.get_resource n) := by
  have hbridge := hasRes_eq_isSome s.resources n
  cases hres : GameState.hasRes s.resources n with
  | true =>
    rw [hres] at hbridge
    simp only [hres, if_true]
    cases hl : s.resources.lookup n with
    | none => rw [hl] at hbridge; simp at hbridge
    | some v => simp [GameState.get_resource, hl]
  | false =>
    rw [hres] at hbridge
    simp only [hres, Bool.false_eq_true, if_false]
    cases hl : s.resources.lookup n with
    | some v => rw [hl] at hbridge; simp at hbridge
    | none =>
      rw [lookup_append_of_none hl]
      simp [List.lookup, GameState.get_resource, hl]

/-- The log component of `modify_resource`: one depletion entry appended
exactly when the unclamped result is ≤ 0. -/
theorem modify_resource_logs (s : GameState) (n : String) (d : ℚ) :
    (s.modify_resource n d).logs
      = s.logs ++ (if s.get_resource n + d ≤ 0 then [⟨s.tick, LogMsg.depleted n⟩] else []) := by
  have hl := ensured_lookup s n
  unfold GameState.modify_resource
  simp only [hl]
  split
  · simp [GameState.add_log]
  · simp

/-- C8 (amended): every `modify_resource` call whose unclamped result is ≤ 0
(equivalently, whose clamped result is exactly 0) appends one depletion log
entry for that resource — including repeated decrements of a resource that
is already at 0, which therefore log once per call, not once per crossing. -/
theorem modify_resource_depletion_log_per_call (s : GameState) (n : String) (d : ℚ) :
    depletionCount (s.modify_resource n d) n
      = depletionCount s n + (if s.get_resource n + d ≤ 0 then 1 else 0) := by
  unfold depletionCount
  rw [modify_resource_logs, List.filter_append]
  split
  · simp
  · simp

/-- C8 counterexample: a resource already at 0 logs a further depletion entry
on every additional decrement — two decrements of depleted food append two
entries, where the claim allows at most the single original crossing. -/
theorem depletion_logged_repeatedly_at_zero :
    stateFood0.get_resource "food" = 0
    ∧ depletionCount stateFood0 "food" = 0
    ∧ depletionCount (stateFood0.modify_resource "food" (-5)) "food" = 1
    ∧ depletionCount
        ((stateFood0.modify_resource "food" (-5)).modify_resource "food" (-5)) "food" = 2 := by
  refine ⟨by with_unfolding_all rfl, by with_unfolding_all rfl,
    by with_unfolding_all rfl, by with_unfolding_all rfl⟩

/-- C6: on a state whose four core resources are non-negative (the floor
invariant), `is_game_over` holds iff some core resource sits at exactly 0
or no actor is alive; in particular all cores > 0 plus a living actor means
not collapsed. -/
theorem collapse_predicate_iff (s : GameState)
    (h : ∀ r ∈ (["oxygen", "water", "energy", "food"] : List String), 0 ≤ s.get_resource r) :
    s.is_game_over = true ↔
      ((∃ r ∈ (["oxygen", "water", "energy", "food"] : List String), s.get_resource r = 0)
        ∨ ∀ p ∈ s.agents, ¬(0 < p.2.health)) := by
  unfold GameState.is_game_over
  rw [Bool.or_eq_true]
  constructor
  · rintro (hres | hemp)
    · left
      simp only [List.any_eq_true, decide_eq_true_eq] at hres
      obtain ⟨r, hr, hle⟩ := hres
      exact ⟨r, hr, le_antisymm hle (h r hr)⟩
    · right
      intro p hp
      rw [List.isEmpty_iff] at hemp
      have := List.filter_eq_nil_iff.mp hemp p hp
      simpa [Agent.is_alive] using this
  · rintro (⟨r, hr, heq⟩ | hdead)
    · left
      simp only [List.any_eq_true, decide_eq_true_eq]
      exact ⟨r, hr, le_of_eq heq⟩
    · right
      rw [List.isEmpty_iff]
      apply List.filter_eq_nil_iff.mpr
      intro p hp
      simpa [Agent.is_alive] using hdead p hp

/-- C6 witness: the one-living-agent genesis-resource state is not collapsed. -/
theorem collapse_predicate_iff_witness :
    (∀ r ∈ (["oxygen", "water", "energy", "food"] : List String), 0 ≤ stateW1.get_resource r)
    ∧ (stateW1.is_game_over = true ↔
        ((∃ r ∈ (["oxygen", "water", "energy", "food"] : List String),
            stateW1.get_resource r = 0)
          ∨ ∀ p ∈ stateW1.agents, ¬(0 < p.2.health))) := by
  have e1 : stateW1.get_resource "oxygen" = 1000 := by with_unfolding_all rfl
  have e2 : stateW1.get_resource "water" = 800 := by with_unfolding_all rfl
  have e3 : stateW1.get_resource "energy" = 500 := by with_unfolding_all rfl
  have e4 : stateW1.get_resource "food" = 600 := by with_unfolding_all rfl
  have h : ∀ r ∈ (["oxygen", "water", "energy", "food"] : List String),
      0 ≤ stateW1.get_resource r := by
    intro r hr
    simp only [List.mem_cons, List.not_mem_nil, or_false] at hr
    rcases hr with rfl | rfl | rfl | rfl
    · rw [e1]; norm_num
    · rw [e2]; norm_num
    · rw [e3]; norm_num
    · rw [e4]; norm_num
  exact ⟨h, collapse_predicate_iff stateW1 h⟩

/-- C5: `time_travel(t)` fails with out-of-range exactly when `t` is negative
or ≥ the snapshot count; on failure the whole controller (live World State,
Generator, snapshot list) is unchanged; on success (possible whenever every
snapshot's checkpoint is compatible with the running constants, which holds
for every reachable controller) the live World State becomes the copy of
`snapshots[t]` and the snapshot list is truncated to exactly `t + 1`
entries. -/
theorem time_travel_spec (c : SimulationController) (t : ℤ)
    (hwf : ∀ st ∈ c.history, rngStateCompatible st.rng_state) :
    ((c.time_travel t).2 = .outOfRange ↔ (t < 0 ∨ (c.history.length : ℤ) ≤ t))
    ∧ ((c.time_travel t).2 = .outOfRange → (c.time_travel t).1 = c)
    ∧ ((c.time_travel t).2 ≠ .outOfRange →
        (c.time_travel t).2 = .ok
        ∧ (c.time_travel t).1.state = c.history.getD t.toNat c.state
        ∧ (c.time_travel t).1.history = c.history.take (t.toNat + 1)
        ∧ (c.time_travel t).1.history.length = t.toNat + 1) := by
  by_cases hb : t < 0 ∨ (c.history.length : ℤ) ≤ t
  · have he : c.time_travel t = (c, .outOfRange) := by
      unfold SimulationController.time_travel
      rw [if_pos hb]
    refine ⟨by simp [he, hb], by simp [he], by simp [he]⟩
  · have htn : t.toNat < c.history.length := by omega
    have hmem : c.history.getD t.toNat c.state ∈ c.history := by
      rw [List.getD_eq_getElem _ _ htn]
      exact List.getElem_mem htn
    have hcompat := hwf _ hmem
    have hlen : (c.history.take (t.toNat + 1)).length = t.toNat + 1 := by
      rw [List.length_take]
      omega
    unfold SimulationController.time_travel
    rw [if_neg hb]
    cases hrs : (c.history.getD t.toNat c.state).rng_state with
    | none =>
      simp only [hrs]
      exact ⟨by simp [hb], by simp, fun _ => ⟨by trivial, by trivial, by trivial, hlen⟩⟩
    | some st =>
      rw [hrs] at hcompat
      have hc : st.modulus = MODULUS ∧ st.multiplier = MULTIPLIER ∧ st.increment = INCREMENT :=
        hcompat
      have hset : c.rng.set_state st = (⟨st.seed, st.initialSeed⟩, true) := by
        unfold DeterministicRandom.set_state
        rw [if_pos hc]
      simp only [hrs, hset]
      exact ⟨by simp [hb], by simp, fun _ => ⟨by trivial, by trivial, by trivial, hlen⟩⟩

/-- C5 witness: rewinding the freshly initialized controller to tick 0. -/
theorem time_travel_spec_witness :
    (∀ st ∈ (SimulationController.init 42).history, rngStateCompatible st.rng_state)
    ∧ (((SimulationController.init 42).time_travel 0).2 = .ok
        ∧ ((SimulationController.init 42).time_travel 0).1.history.length = 1)
    ∧ (((SimulationController.init 42).time_travel 3).2 = .outOfRange
        ∧ ((SimulationController.init 42).time_travel 3).1 = SimulationController.init 42) := by
  have hwf : ∀ st ∈ (SimulationController.init 42).history, rngStateCompatible st.rng_state := by
    intro st hst
    have : (SimulationController.init 42).history
        = [(SimulationController.init 42).state] := rfl
    rw [this] at hst
    simp only [List.mem_singleton] at hst
    subst hst
    have hrs : (SimulationController.init 42).state.rng_state = some G42.get_state := rfl
    rw [hrs]
    exact ⟨rfl, rfl, rfl⟩
  have h0 := time_travel_spec (SimulationController.init 42) 0 hwf
  have h3 := time_travel_spec (SimulationController.init 42) 3 hwf
  have hlen1 : (SimulationController.init 42).history.length = 1 := rfl
  have hne : ((SimulationController.init 42).time_travel 0).2
      ≠ SimulationController.TTResult.outOfRange := by
    intro hc
    have h' := h0.1.mp hc
    rw [hlen1] at h'
    omega
  have hoor : ((SimulationController.init 42).time_travel 3).2
      = SimulationController.TTResult.outOfRange := by
    apply h3.1.mpr
    rw [hlen1]
    right
    norm_num
  refine ⟨hwf, ⟨(h0.2.2 hne).1, ?_⟩, hoor, h3.2.1 hoor⟩
  rw [(h0.2.2 hne).2.2.2]
  rfl

/-- The resources component of `modify_resource` depends only on the
resources component of the input state. -/
theorem modify_resource_resources_congr {s₁ s₂ : GameState} (n : String) (d : ℚ)
    (h : s₁.resources = s₂.resources) :
    (s₁.modify_resource n d).resources = (s₂.modify_resource n d).resources := by
  rw [modify_resource_resources, modify_resource_resources, h]

/-- Folding a list of resource deltas likewise only reads/writes resources. -/
theorem foldl_modify_resources_congr (effects : List (String × ℚ)) :
    ∀ {s₁ s₂ : GameState}, s₁.resources = s₂.resources →
      (effects.foldl (fun st p => st.modify_resource p.1 p.2) s₁).resources
        = (effects.foldl (fun st p => st.modify_resource p.1 p.2) s₂).resources := by
  induction effects with
  | nil => intro s₁ s₂ h; exact h
  | cons e rest ih =>
    intro s₁ s₂ h
    exact ih (modify_resource_resources_congr e.1 e.2 h)

/-- `resolveGo` on a list whose first id-match is `d`, with a valid option
index: it succeeds and hands back exactly `d`. -/
theorem resolveGo_found (id : String) (idx : ℤ) :
    ∀ (l : List Decision) (d : Decision),
      l.find? (fun x => x.id == id) = some d →
      0 ≤ idx → idx < (d.options.length : ℤ) →
      ∃ pre, MarsEnvironment.resolveGo id idx l = (pre, some (d, true)) := by
  intro l
  induction l with
  | nil => intro d h _ _; simp [List.find?] at h
  | cons d0 rest ih =>
    intro d h h0 hlt
    cases hid : (d0.id == id) with
    | true =>
      simp only [List.find?, hid] at h
      have hd : d0 = d := by injection h
      subst hd
      have hb : ¬(idx < 0 ∨ (d0.options.length : ℤ) ≤ idx) := by omega
      refine ⟨{ d0 with resolved := true, chosen_option := some idx.toNat } :: rest, ?_⟩
      unfold MarsEnvironment.resolveGo
      simp only [hid, if_true, if_neg hb]
    | false =>
      simp only [List.find?, hid] at h
      obtain ⟨pre, hpre⟩ := ih d h h0 hlt
      refine ⟨d0 :: pre, ?_⟩
      unfold MarsEnvironment.resolveGo
      simp only [hid, Bool.false_eq_true, if_false, hpre]

/-- C10: `resolve_decision` never consults the `resolved` flag — on a
decision already marked resolved, a call with its id and a valid option
index still succeeds and folds that option's resource deltas into the
World State once more. -/
theorem resolve_decision_ignores_resolved_flag (s : GameState) (id : String) (idx : ℤ)
    (d : Decision)
    (hfind : s.pending_decisions.find? (fun x => x.id == id) = some d)
    (_hres : d.resolved = true)
    (h0 : 0 ≤ idx) (hlt : idx < (d.options.length : ℤ)) :
    (MarsEnvironment.resolve_decision s id idx).2
      = .ok (d.options.getD idx.toNat ⟨"", []⟩).effects
    ∧ (MarsEnvironment.resolve_decision s id idx).1.resources
      = ((d.options.getD idx.toNat ⟨"", []⟩).effects.foldl
          (fun st p => st.modify_resource p.1 p.2) s).resources := by
  obtain ⟨pre, hpre⟩ := resolveGo_found id idx s.pending_decisions d hfind h0 hlt
  unfold MarsEnvironment.resolve_decision
  simp only [hpre]
  refine ⟨by trivial, ?_⟩
  have hadd : ∀ (x : GameState) (m : LogMsg), (x.add_log m).resources = x.resources :=
    fun _ _ => rfl
  rw [hadd]
  exact foldl_modify_resources_congr _ rfl

/-- C10 witness: resolving the already-resolved emergency of `stateWD`
succeeds and deducts its 100 energy again. -/
theorem resolve_decision_ignores_resolved_flag_witness :
    decisionDone.resolved = true
    ∧ (MarsEnvironment.resolve_decision stateWD "decision_1_1234" 0).2
        = .ok (decisionDone.options.getD (Int.toNat 0) ⟨"", []⟩).effects
    ∧ (MarsEnvironment.resolve_decision stateWD "decision_1_1234" 0).1.resources
        = ((decisionDone.options.getD (Int.toNat 0) ⟨"", []⟩).effects.foldl
            (fun st p => st.modify_resource p.1 p.2) stateWD).resources := by
  have hfind : stateWD.pending_decisions.find? (fun x => x.id == "decision_1_1234")
      = some decisionDone := by with_unfolding_all rfl
  have hlen : (decisionDone.options.length : ℤ) = 2 := rfl
  have h := resolve_decision_ignores_resolved_flag stateWD "decision_1_1234" 0 decisionDone
    hfind rfl (by norm_num) (by rw [hlen]; norm_num)
  exact ⟨rfl, h.1, h.2⟩

/-- On a non-collapse outcome, the tail of the pipeline stores the final
generator state into `rng_state`. -/
theorem stepFinish_noncollapse (actions : List AgentAction) (aliveIdx : List ℕ)
    (o : Option (GameState × DeterministicRandom)) (s' : GameState)
    (g' : DeterministicRandom)
    (h : MarsEnvironment.stepFinish actions aliveIdx o = some (s', g', false)) :
    s'.rng_state = some g'.get_state := by
  cases o with
  | none => simp [MarsEnvironment.stepFinish] at h
  | some r7 =>
    simp only [MarsEnvironment.stepFinish] at h
    split at h
    · simp at h
    · rw [Option.some_inj] at h
      have hs : _ = s' := congrArg Prod.fst h
      have hg : _ = g' := congrArg (fun p => p.2.1) h
      subst hs
      subst hg
      rfl

/-- C4 (amended): on every tick on which collapse is NOT reported,
`Engine.step` stores the end-of-tick Generator state into the World State's
`generator_checkpoint`, and restoring any Generator from that checkpoint
reproduces the end-of-tick Generator exactly (hence all draws of the next
tick onward). -/
theorem rng_checkpoint_saved_on_noncollapse_tick (s : GameState)
    (g : DeterministicRandom) (actions : List AgentAction) (s' : GameState)
    (g' : DeterministicRandom)
    (h : MarsEnvironment.step s g actions = some (s', g', false)) :
    s'.rng_state = some g'.get_state
    ∧ ∀ gPrev : DeterministicRandom, gPrev.set_state g'.get_state = (g', true) := by
  unfold MarsEnvironment.step at h
  refine ⟨stepFinish_noncollapse _ _ _ _ _ h, ?_⟩
  intro gPrev
  simp [DeterministicRandom.set_state, DeterministicRandom.get_state]

/-- C4 counterexample: on a collapsing tick (no actors alive ⇒ collapse) the
Generator advances (five draws) but `rng_state` keeps its pre-tick value,
so the stored checkpoint differs from the Generator state at the end of
that tick. -/
theorem rng_checkpoint_stale_on_collapse_tick :
    (MarsEnvironment.step stateW0 G42 []).map
        (fun r => (r.2.2, r.1.rng_state, r.2.1.get_state))
      = some (true, some G42.get_state,
          (DeterministicRandom.mk 908095735 42).get_state)
    ∧ G42.get_state ≠ (DeterministicRandom.mk 908095735 42).get_state := by
  constructor
  · with_unfolding_all rfl
  · decide

/-- C4 witness: the non-collapsing seed-42 tick of `stateW1`. -/
theorem rng_checkpoint_saved_on_noncollapse_tick_witness :
    MarsEnvironment.step stateW1 G42 []
      = some (stateW1after, DeterministicRandom.mk 908095735 42, false)
    ∧ stateW1after.rng_state = some (DeterministicRandom.mk 908095735 42).get_state := by
  have h : MarsEnvironment.step stateW1 G42 []
      = some (stateW1after, DeterministicRandom.mk 908095735 42, false) := by
    with_unfolding_all rfl
  exact ⟨h, (rng_checkpoint_saved_on_noncollapse_tick stateW1 G42 [] stateW1after
    (DeterministicRandom.mk 908095735 42) h).1⟩

/-- C1: the per-tick step is a pure function of the World State, the
Generator state, and the action batch — equal inputs give equal outputs
(same World State, bit-identical resources and health, same collapse
flag) — and two Controllers built from the same seed and fed the same
action sequence agree after any number of ticks. -/
theorem step_and_controller_deterministic
    (s₁ s₂ : GameState) (g₁ g₂ : DeterministicRandom) (actions : List AgentAction)
    (hs : s₁ = s₂) (hg : g₁ = g₂) :
    MarsEnvironment.step s₁ g₁ actions = MarsEnvironment.step s₂ g₂ actions
    ∧ ∀ (seed₁ seed₂ : ℤ) (actionSeq : List (List AgentAction)), seed₁ = seed₂ →
        SimulationController.runTicks (SimulationController.init seed₁) actionSeq
          = SimulationController.runTicks (SimulationController.init seed₂) actionSeq
        ∧ (SimulationController.runTicks (SimulationController.init seed₁) actionSeq).map
            (fun c => (c.state.resources, c.state.agents.map fun p => (p.1, p.2.health)))
          = (SimulationController.runTicks (SimulationController.init seed₂) actionSeq).map
            (fun c => (c.state.resources, c.state.agents.map fun p => (p.1, p.2.health))) := by
  subst hs
  subst hg
  refine ⟨rfl, ?_⟩
  intro seed₁ seed₂ actionSeq hseed
  subst hseed
  exact ⟨rfl, rfl⟩

/-- C1 witness at concrete inputs (seed 42, two empty-action ticks). -/
theorem step_and_controller_deterministic_witness :
    MarsEnvironment.step stateW1 G42 [] = MarsEnvironment.step stateW1 G42 []
    ∧ SimulationController.runTicks (SimulationController.init 42) [[], []]
        = SimulationController.runTicks (SimulationController.init 42) [[], []] :=
  ⟨(step_and_controller_deterministic stateW1 stateW1 G42 G42 [] rfl rfl).1,
   ((step_and_controller_deterministic stateW1 stateW1 G42 G42 [] rfl rfl).2
      42 42 [[], []] rfl).1⟩

/-! ### Lemmas for C3: no pipeline stage except `eat` can raise health from 0 -/

/-- Equal agent lists have equal (key, health) views at every index. -/
theorem mapkh_congr {l₁ l₂ : List (String × Agent)} (h : l₁ = l₂) (i : ℕ) :
    (l₁[i]?).map (fun p => (p.1, p.2.health)) = (l₂[i]?).map (fun p => (p.1, p.2.health)) := by
  rw [h]

/-- `modify_resource` never touches the agents dict. -/
theorem modify_resource_agents (s : GameState) (n : String) (d : ℚ) :
    (s.modify_resource n d).agents = s.agents := by
  unfold GameState.modify_resource
  dsimp only
  split <;> split <;> rfl

/-- `add_log` never touches the agents dict. -/
theorem add_log_agents (s : GameState) (m : LogMsg) :
    (s.add_log m).agents = s.agents := rfl

/-- The critical-low logging loop of `_consume_resources` keeps agents. -/
theorem foldl_criticalLow_agents (l : List (String × ℚ)) :
    ∀ s : GameState,
      (l.foldl (fun acc p => if p.2 < 20.0 then acc.add_log (.criticalLow p.1 p.2) else acc)
        s).agents = s.agents := by
  induction l with
  | nil => intro s; rfl
  | cons p t ih =>
    intro s
    simp only [List.foldl_cons]
    rw [ih]
    split <;> rfl

/-- Stage 2 (`_consume_resources`) keeps agents. -/
theorem consumeResources_agents (s : GameState) (n : ℕ) :
    (MarsEnvironment.consumeResources s n).agents = s.agents := by
  unfold MarsEnvironment.consumeResources
  split
  · rfl
  · rw [foldl_criticalLow_agents]
    simp only [modify_resource_agents]
    split <;> rfl

/-- The action-logging loop of `_process_actions` keeps agents. -/
theorem foldl_actionLog_agents (actions : List AgentAction) :
    ∀ s : GameState,
      (actions.foldl (fun st a => st.add_log (.actionLog a.type a.target a.argument)) s).agents
        = s.agents := by
  induction actions with
  | nil => intro s; rfl
  | cons a t ih =>
    intro s
    simp only [List.foldl_cons]
    rw [ih]
    rfl

/-- Resource-delta folds (mission rewards, decision effects) keep agents. -/
theorem foldl_effects_agents (effects : List (String × ℚ)) :
    ∀ s : GameState,
      (effects.foldl (fun st p => st.modify_resource p.1 p.2) s).agents = s.agents := by
  induction effects with
  | nil => intro s; rfl
  | cons e t ih =>
    intro s
    simp only [List.foldl_cons]
    rw [ih, modify_resource_agents]

/-- Stage 4 (`_produce_resources`) keeps agents. -/
theorem produceResources_agents (s : GameState) :
    (MarsEnvironment.produceResources s).agents = s.agents := by
  unfold MarsEnvironment.produceResources
  rw [modify_resource_agents]
  split <;> rfl

/-- Stage 9 (`_update_missions`) keeps agents. -/
theorem updateMissions_agents (s : GameState) (actions : List AgentAction) :
    (MarsEnvironment.updateMissions s actions).agents = s.agents := by
  unfold MarsEnvironment.updateMissions
  have main : ∀ (ms : List Mission) (acc : GameState × List Mission),
      ((ms.foldl (fun acc m =>
        if m.status != "active" then (acc.1, acc.2 ++ [m])
        else
          let m :=
            if m.type == "produce_resources" then
              if ["oxygen", "water", "energy", "food"].contains "" then
                { m with current_value := m.current_value + 2.0 }
              else m
            else if m.type == "maintain_systems" then
              { m with current_value := m.current_value + (MarsEnvironment.countActions actions "repair" : ℚ) * 1.0 }
            else if m.type == "explore" then
              { m with current_value := m.current_value + (MarsEnvironment.countActions actions "work" : ℚ) * 0.5 }
            else if m.type == "research" then
              { m with current_value := m.current_value + (MarsEnvironment.countActions actions "talk" : ℚ) * 0.5 }
            else m
          if m.target_value ≤ m.current_value then
            let m := { m with status := "completed" }
            let st := m.reward.foldl (fun st2 p => st2.modify_resource p.1 p.2) acc.1
            (st.add_log (.missionComplete m.title), acc.2 ++ [m])
          else (acc.1, acc.2 ++ [m])) acc).1).agents = acc.1.agents := by
    intro ms
    induction ms with
    | nil => intro acc; rfl
    | cons m t ih =>
      intro acc
      simp only [List.foldl_cons]
      rw [ih]
      try dsimp only
      repeat' split
      all_goals try rfl
      all_goals rw [add_log_agents, foldl_effects_agents]
  exact main s.missions (s, [])

/-- Stage 8 (`_generate_mission`) keeps agents. -/
theorem generateMission_agents (s : GameState) (g : DeterministicRandom) :
    (MarsEnvironment.generateMission s g).1.agents = s.agents := by
  unfold MarsEnvironment.generateMission
  dsimp only
  split
  · rfl
  · split
    · rfl
    · split
      · rfl
      · rfl

/-- Stage 7 (`_generate_decision`): whenever it returns (no `KeyError`),
agents are unchanged. -/
theorem generateDecision_agents (s : GameState) (g : DeterministicRandom)
    (r : GameState × DeterministicRandom)
    (h : MarsEnvironment.generateDecision s g = some r) :
    r.1.agents = s.agents := by
  unfold MarsEnvironment.generateDecision at h
  dsimp only at h
  split at h
  · obtain rfl := Option.some_inj.mp h
    rfl
  · split at h
    · obtain rfl := Option.some_inj.mp h
      rfl
    · split at h
      · exact absurd h (by simp)
      · obtain rfl := Option.some_inj.mp h
        rfl

/-- Mapping an agent-transformer that keeps keys and health keeps the
(key, health) view at every index. -/
theorem map_key_health (i : ℕ) (fm : String × Agent → String × Agent)
    (hfm : ∀ p, (fm p).1 = p.1 ∧ (fm p).2.health = p.2.health)
    (l : List (String × Agent)) :
    ((l.map fm)[i]?).map (fun p => (p.1, p.2.health))
      = (l[i]?).map (fun p => (p.1, p.2.health)) := by
  rw [List.getElem?_map]
  cases hp : l[i]? with
  | none => rfl
  | some p =>
    simp only [Option.map_some']
    rw [(hfm p).1, (hfm p).2]

/-- The `WORK` branch keeps agents (only resources and logs change). -/
theorem processWork_agents (s : GameState) (g : DeterministicRandom)
    (an : Option String) (bs : List (String × ℚ)) :
    (MarsEnvironment.processWork s g an bs).1.agents = s.agents := by
  unfold MarsEnvironment.processWork
  dsimp only
  simp only [modify_resource_agents]
  repeat' split
  all_goals first
    | rfl
    | simp only [modify_resource_agents, add_log_agents]

/-- The `REPAIR` branch keeps agents. -/
theorem processRepair_agents (s : GameState) (g : DeterministicRandom) (t : String)
    (an : Option String) (bs : List (String × ℚ)) :
    (MarsEnvironment.processRepair s g t an bs).1.agents = s.agents := by
  unfold MarsEnvironment.processRepair
  dsimp only
  repeat' split
  all_goals first
    | rfl
    | simp only [modify_resource_agents, add_log_agents]

/-- The `SABOTAGE` branch keeps agents. -/
theorem processSabotage_agents (s : GameState) (g : DeterministicRandom) (t : String) :
    (MarsEnvironment.processSabotage s g t).1.agents = s.agents := by
  unfold MarsEnvironment.processSabotage
  dsimp only
  repeat' split
  all_goals first
    | rfl
    | simp only [modify_resource_agents, add_log_agents]

/-- The `REST` branch keeps every agent's key and health (mental state only). -/
theorem processRest_key_health (s : GameState) (g : DeterministicRandom)
    (arg : String) (bs : List (String × ℚ)) (i : ℕ) :
    (((MarsEnvironment.processRest s g arg bs).1.agents)[i]?).map
        (fun p => (p.1, p.2.health))
      = ((s.agents)[i]?).map (fun p => (p.1, p.2.health)) := by
  unfold MarsEnvironment.processRest
  dsimp only
  refine map_key_health i _ ?_ s.agents
  intro p
  dsimp only
  split
  · exact ⟨rfl, rfl⟩
  · exact ⟨rfl, rfl⟩

/-- The `TALK` branch keeps every agent's key and health. -/
theorem processTalk_key_health (s : GameState) (g : DeterministicRandom)
    (arg : String) (bs : List (String × ℚ)) (i : ℕ) :
    (((MarsEnvironment.processTalk s g arg bs).1.agents)[i]?).map
        (fun p => (p.1, p.2.health))
      = ((s.agents)[i]?).map (fun p => (p.1, p.2.health)) := by
  unfold MarsEnvironment.processTalk
  dsimp only
  split
  · simp only [modify_resource_agents]
    refine map_key_health i _ ?_ s.agents
    intro p
    dsimp only
    split
    · exact ⟨rfl, rfl⟩
    · exact ⟨rfl, rfl⟩
  · refine map_key_health i _ ?_ s.agents
    intro p
    dsimp only
    split
    · exact ⟨rfl, rfl⟩
    · exact ⟨rfl, rfl⟩

/-- Stage 3 effects (`_process_actions`, one action): every action type other
than `eat` keeps each agent's key and health. -/
theorem processOneAction_key_health (s : GameState) (g : DeterministicRandom)
    (act : AgentAction) (hne : act.type ≠ "eat") (i : ℕ) :
    (((MarsEnvironment.processOneAction s g act).1.agents)[i]?).map
        (fun p => (p.1, p.2.health))
      = ((s.agents)[i]?).map (fun p => (p.1, p.2.health)) := by
  have heat : (act.type == "eat") = false := beq_eq_false_iff_ne.mpr hne
  unfold MarsEnvironment.processOneAction
  dsimp only
  simp only [heat, Bool.false_eq_true, if_false]
  split
  · exact mapkh_congr (processWork_agents _ _ _ _) i
  · split
    · exact mapkh_congr (processRepair_agents _ _ _ _ _) i
    · split
      · exact mapkh_congr (processSabotage_agents _ _ _) i
      · split
        · exact processRest_key_health _ _ _ _ i
        · split
          · exact processTalk_key_health _ _ _ _ i
          · exact mapkh_congr rfl i

/-- Stage 3 (`_process_actions`, whole batch without `eat`) keeps each
agent's key and health. -/
theorem processActions_key_health (actions : List AgentAction)
    (hnoeat : ∀ act ∈ actions, act.type ≠ "eat") (s : GameState)
    (g : DeterministicRandom) (i : ℕ) :
    (((MarsEnvironment.processActions s g actions).1.agents)[i]?).map
        (fun p => (p.1, p.2.health))
      = ((s.agents)[i]?).map (fun p => (p.1, p.2.health)) := by
  unfold MarsEnvironment.processActions
  have main : ∀ (acts : List AgentAction), (∀ a ∈ acts, a.type ≠ "eat") →
      ∀ (q : GameState × DeterministicRandom),
      (((acts.foldl (fun q a => MarsEnvironment.processOneAction q.1 q.2 a) q).1.agents)[i]?).map
          (fun p => (p.1, p.2.health))
        = ((q.1.agents)[i]?).map (fun p => (p.1, p.2.health)) := by
    intro acts
    induction acts with
    | nil => intro _ q; rfl
    | cons a t ih =>
      intro hks q
      simp only [List.foldl_cons]
      rw [ih (fun x hx => hks x (List.mem_cons_of_mem a hx))]
      exact processOneAction_key_health q.1 q.2 a (hks a (List.mem_cons_self a t)) i
  rw [main actions hnoeat]
  exact mapkh_congr (foldl_actionLog_agents actions s) i

/-- The life-support check keeps agents. -/
theorem lifeSupportCheck_agents (s : GameState) (g : DeterministicRandom) :
    (MarsEnvironment.lifeSupportCheck s g).1.agents = s.agents := by
  unfold MarsEnvironment.lifeSupportCheck
  dsimp only
  repeat' split
  all_goals first
    | rfl
    | simp only [modify_resource_agents, add_log_agents]

/-- The starvation check leaves an agent with 0 health untouched (the damage
only hits living agents). -/
theorem starvationCheck_dead (s : GameState) (i : ℕ) (k : String) (a : Agent)
    (hget : s.agents[i]? = some (k, a)) (ha : a.health = 0) :
    (MarsEnvironment.starvationCheck s).agents[i]? = some (k, a) := by
  have hdead : a.is_alive = false := by simp [Agent.is_alive, ha]
  unfold MarsEnvironment.starvationCheck
  dsimp only
  split
  · rw [add_log_agents]
    dsimp only
    rw [List.getElem?_map, hget]
    simp only [Option.map_some', hdead, Bool.false_eq_true, if_false]
  · exact hget

/-- Stage 5 (`_check_disasters`) leaves an agent with 0 health untouched. -/
theorem checkDisasters_dead (s : GameState) (g : DeterministicRandom) (i : ℕ)
    (k : String) (a : Agent) (hget : s.agents[i]? = some (k, a)) (ha : a.health = 0) :
    (MarsEnvironment.checkDisasters s g).1.agents[i]? = some (k, a) := by
  unfold MarsEnvironment.checkDisasters
  dsimp only
  apply starvationCheck_dead _ i k a _ ha
  rw [lifeSupportCheck_agents]
  exact hget

/-- The solar-panel event keeps agents. -/
theorem solarEvent_agents (s : GameState) (g : DeterministicRandom) (fr : ℚ) :
    (MarsEnvironment.solarEvent s g fr).1.agents = s.agents := by
  unfold MarsEnvironment.solarEvent
  dsimp only
  repeat' split
  all_goals first
    | rfl
    | simp only [modify_resource_agents, add_log_agents]

/-- The water-recycler event keeps agents. -/
theorem waterEvent_agents (s : GameState) (g : DeterministicRandom) (fr : ℚ) :
    (MarsEnvironment.waterEvent s g fr).1.agents = s.agents := by
  unfold MarsEnvironment.waterEvent
  dsimp only
  repeat' split
  all_goals first
    | rfl
    | simp only [modify_resource_agents, add_log_agents]

/-- The mental-breakdown event keeps each agent's key and health. -/
theorem breakdownEvent_key_health (s : GameState) (g : DeterministicRandom)
    (fr : ℚ) (i : ℕ) :
    (((MarsEnvironment.breakdownEvent s g fr).1.agents)[i]?).map
        (fun p => (p.1, p.2.health))
      = ((s.agents)[i]?).map (fun p => (p.1, p.2.health)) := by
  unfold MarsEnvironment.breakdownEvent
  dsimp only
  split
  · split
    · exact mapkh_congr rfl i
    · rw [add_log_agents]
      dsimp only
      rw [List.getElem?_map, List.getElem?_enum]
      cases hp : s.agents[i]? with
      | none => rfl
      | some p =>
        simp only [Option.map_some']
        split
        · rfl
        · rfl
  · exact mapkh_congr rfl i

/-- Stage 6 (`_random_events`) keeps each agent's key and health. -/
theorem randomEvents_key_health (s : GameState) (g : DeterministicRandom) (i : ℕ) :
    (((MarsEnvironment.randomEvents s g).1.agents)[i]?).map (fun p => (p.1, p.2.health))
      = ((s.agents)[i]?).map (fun p => (p.1, p.2.health)) := by
  unfold MarsEnvironment.randomEvents
  dsimp only
  exact (breakdownEvent_key_health _ _ _ i).trans
    ((mapkh_congr (waterEvent_agents _ _ _) i).trans
      (mapkh_congr (solarEvent_agents _ _ _) i))

/-- Stage 10 (`_update_agents`): a dict slot whose position is not in the
alive list is left exactly as it was. -/
theorem updateAgentsAux_getElem (s0 : GameState) (aliveIdx : List ℕ) :
    ∀ (l : List (String × Agent)) (i0 : ℕ) (st : GameState) (j : ℕ),
      ¬ (i0 + j) ∈ aliveIdx →
      ((MarsEnvironment.updateAgentsAux s0 aliveIdx i0 st l).2)[j]? = l[j]? := by
  intro l
  induction l with
  | nil => intro i0 st j _; rfl
  | cons p rest ih =>
    intro i0 st j hj
    unfold MarsEnvironment.updateAgentsAux
    dsimp only
    cases j with
    | zero =>
      have hc : aliveIdx.contains i0 = false := by
        by_contra hcc
        rw [Bool.not_eq_false] at hcc
        exact hj (by simpa using List.elem_iff.mp hcc)
      simp only [hc, Bool.false_eq_true, if_false, List.getElem?_cons_zero]
    | succ j' =>
      have hj' : ¬ ((i0 + 1) + j') ∈ aliveIdx := by
        intro hx
        apply hj
        have he : i0 + (j' + 1) = (i0 + 1) + j' := by omega
        rw [he]
        exact hx
      by_cases hc : aliveIdx.contains i0 = true
      · simp only [hc, if_true, List.getElem?_cons_succ]
        exact ih (i0 + 1) _ j' hj'
      · simp only [eq_false_of_ne_true hc, Bool.false_eq_true, if_false,
          List.getElem?_cons_succ]
        exact ih (i0 + 1) st j' hj'

/-- Stage 10 wrapper. -/
theorem updateAgents_getElem (s : GameState) (aliveIdx : List ℕ) (i : ℕ)
    (hni : ¬ i ∈ aliveIdx) :
    (MarsEnvironment.updateAgents s aliveIdx).agents[i]? = s.agents[i]? := by
  unfold MarsEnvironment.updateAgents
  dsimp only
  exact updateAgentsAux_getElem s aliveIdx s.agents 0 s i (by simpa using hni)

/-- A slot holding a dead agent is never collected into `alive_agents`. -/
theorem not_mem_aliveIdx_of_dead (l : List (String × Agent)) (i : ℕ) (k : String)
    (a : Agent) (hget : l[i]? = some (k, a)) (ha : a.is_alive = false) :
    ¬ i ∈ ((l.enum.filter (fun ip => ip.2.2.is_alive)).map (fun ip => ip.1)) := by
  intro hmem
  rw [List.mem_map] at hmem
  obtain ⟨ip, hip, hfst⟩ := hmem
  rw [List.mem_filter] at hip
  obtain ⟨hen, halive⟩ := hip
  rw [List.mem_enum_iff_getElem?] at hen
  rw [hfst, hget] at hen
  have hv : ip.2 = (k, a) := (Option.some_inj.mp hen).symm
  rw [hv] at halive
  rw [show ((k, a) : String × Agent).2.is_alive = a.is_alive from rfl, ha] at halive
  exact Bool.false_ne_true halive

/-- A stage whose output agents have the same (key, health) view keeps the
"dead slot of key `k`" property. -/
theorem kh_view_preserves {l₁ l₂ : List (String × Agent)} (i : ℕ) (k : String)
    (hview : (l₁[i]?).map (fun p => (p.1, p.2.health))
      = (l₂[i]?).map (fun p => (p.1, p.2.health)))
    (h : ∃ a', l₂[i]? = some (k, a') ∧ a'.health = 0) :
    ∃ a', l₁[i]? = some (k, a') ∧ a'.health = 0 := by
  obtain ⟨a', hg, hh⟩ := h
  rw [hg] at hview
  cases hl : l₁[i]? with
  | none => rw [hl] at hview; simp at hview
  | some p =>
    obtain ⟨p1, p2⟩ := p
    rw [hl] at hview
    simp only [Option.map_some', Option.some_inj, Prod.mk.injEq] at hview
    obtain ⟨hk, hhp⟩ := hview
    subst hk
    exact ⟨p2, rfl, by rw [hhp, hh]⟩

/-- Stage 5 keeps the dead-slot property. -/
theorem checkDisasters_preserves_dead (s : GameState) (g : DeterministicRandom)
    (i : ℕ) (k : String)
    (h : ∃ a', s.agents[i]? = some (k, a') ∧ a'.health = 0) :
    ∃ a', (MarsEnvironment.checkDisasters s g).1.agents[i]? = some (k, a')
      ∧ a'.health = 0 := by
  obtain ⟨a', hg, hh⟩ := h
  exact ⟨a', checkDisasters_dead s g i k a' hg hh, hh⟩

/-- The tail of the pipeline (stages 8–12) keeps a dead slot dead, provided
the slot's position is not in the tick's alive list. -/
theorem stepFinish_preserves_dead (actions : List AgentAction) (aliveIdx : List ℕ)
    (o : Option (GameState × DeterministicRandom)) (s' : GameState)
    (g' : DeterministicRandom) (over : Bool) (i : ℕ) (k : String)
    (h : MarsEnvironment.stepFinish actions aliveIdx o = some (s', g', over))
    (hin : ∀ sIn gIn, o = some (sIn, gIn) →
      ∃ a', sIn.agents[i]? = some (k, a') ∧ a'.health = 0)
    (hni : ¬ i ∈ aliveIdx) :
    ∃ a', s'.agents[i]? = some (k, a') ∧ a'.health = 0 := by
  cases o with
  | none => simp [MarsEnvironment.stepFinish] at h
  | some r7 =>
    obtain ⟨a', hg, hh⟩ := hin r7.1 r7.2 rfl
    have hchain : (MarsEnvironment.updateAgents
        (MarsEnvironment.updateMissions
          (MarsEnvironment.generateMission r7.1 r7.2).1 actions) aliveIdx).agents[i]?
        = some (k, a') := by
      rw [updateAgents_getElem _ _ _ hni, updateMissions_agents, generateMission_agents]
      exact hg
    simp only [MarsEnvironment.stepFinish] at h
    split at h
    · have hs : _ = s' := congrArg Prod.fst (Option.some_inj.mp h)
      subst hs
      refine ⟨a', ?_, hh⟩
      rw [add_log_agents]
      exact hchain
    · have hs : _ = s' := congrArg Prod.fst (Option.some_inj.mp h)
      subst hs
      exact ⟨a', hchain, hh⟩

/-- C3 (amended): for every World State and every batch of actions that
contains no `eat` action, an actor with health 0 (dead) before
`Engine.step` still has health 0 after it — consumption, repairs,
sabotage, rest/talk, disasters, random events, emergencies, missions and
the actor update never raise health from 0; only the `eat` effect can. -/
theorem step_no_eat_preserves_death (s : GameState) (g : DeterministicRandom)
    (actions : List AgentAction) (s' : GameState) (g' : DeterministicRandom)
    (over : Bool) (i : ℕ) (k : String) (a : Agent)
    (hnoeat : ∀ act ∈ actions, act.type ≠ "eat")
    (hstep : MarsEnvironment.step s g actions = some (s', g', over))
    (hget : s.agents[i]? = some (k, a)) (hdead : a.health = 0) :
    ∃ a', s'.agents[i]? = some (k, a') ∧ a'.health = 0 := by
  have halive : a.is_alive = false := by simp [Agent.is_alive, hdead]
  unfold MarsEnvironment.step at hstep
  dsimp only at hstep
  apply stepFinish_preserves_dead _ _ _ _ _ _ i k hstep _ ?_
  · intro sIn gIn hgd
    have hagents : sIn.agents = _ := generateDecision_agents _ _ _ hgd
    rw [hagents]
    apply kh_view_preserves i k (randomEvents_key_health _ _ i)
    apply checkDisasters_preserves_dead
    rw [produceResources_agents]
    apply kh_view_preserves i k (processActions_key_health actions hnoeat _ _ i)
    rw [consumeResources_agents]
    exact ⟨a, hget, hdead⟩
  · exact not_mem_aliveIdx_of_dead _ i k a hget halive

/-- C3 counterexample: an `eat` action naming a dead actor raises its
health from 0 to 5 across `Engine.step` — death is not one-way, refuting
the claim as stated for the EAT branch. -/
theorem eat_action_revives_dead_actor :
    (stateWB.agents.lookup "bob").map Agent.health = some 0
    ∧ (MarsEnvironment.step stateWB G42 [eatBob]).map
        (fun r => ((r.1.agents.lookup "bob").map Agent.health, r.2.2))
      = some (some 5, false)
    ∧ (5 : ℚ) ≠ 0 := by
  refine ⟨by with_unfolding_all rfl, by with_unfolding_all rfl, by norm_num⟩

/-- C3 witness: an eat-free tick on the same state leaves the dead actor
dead. -/
theorem step_no_eat_preserves_death_witness :
    MarsEnvironment.step stateWB G42 []
      = some (stateWBafter, DeterministicRandom.mk 908095735 42, false)
    ∧ ∃ a', stateWBafter.agents[1]? = some ("bob", a') ∧ a'.health = 0 := by
  have hstep : MarsEnvironment.step stateWB G42 []
      = some (stateWBafter, DeterministicRandom.mk 908095735 42, false) := by
    with_unfolding_all rfl
  refine ⟨hstep, step_no_eat_preserves_death stateWB G42 [] stateWBafter
    (DeterministicRandom.mk 908095735 42) false 1 "bob" agentBob
    (by intro act hact; simp at hact) hstep (by with_unfolding_all rfl) rfl⟩

end RedDust
